import Mathlib

/-!
Verification development for the vaani-service backend.

The definitions below are a shallow embedding of the Python services in
`app/services/` (dashboard, host assignment, registration member, vehicle
sharing) together with the parts of the data model (`app/models/`,
`app/schemas/`) they touch.  Database tables are embedded as Lean lists of
records; SQLAlchemy queries become list filters/finds; endpoints that raise
`HTTPException` are embedded as `Except HttpError` (an error result models
the service raising after `db.rollback()`, so the database is unchanged).
Nullable columns are embedded as `Option`; non-deterministic `uuid.uuid4()`
ids are passed in as explicit inputs.
-/

namespace Vaani

/-! ## Enumerations (`app/schemas/enums.py`) -/

/-- `RegistrationType` in `app/schemas/enums.py`. -/
inductive RegistrationType where
  | individual
  | group
deriving DecidableEq, Repr

/-- `TransportationMode` in `app/schemas/enums.py`. -/
inductive TransportationMode where
  | «public»
  | «private»
deriving DecidableEq, Repr

/-- `Gender` in `app/schemas/enums.py` (values `'M'`, `'F'`). -/
inductive Gender where
  | M
  | F
deriving DecidableEq, Repr

/-- `RegistrationStatus` in `app/schemas/enums.py`: the member lifecycle
status, with exactly the four values `registered`, `waiting`, `confirmed`,
`cancelled`. -/
inductive RegistrationStatus where
  | registered
  | waiting
  | confirmed
  | cancelled
deriving DecidableEq, Repr

/-- `ToiletPreference` in `app/schemas/enums.py`. -/
inductive ToiletPreference where
  | indian
  | western
deriving DecidableEq, Repr

/-! ## Data model rows

Each structure embeds the columns of one SQLAlchemy model that the verified
services read or write; presentation-only columns (timestamps, free-text
descriptions not used by any verified computation) are omitted. -/

/-- Row of `hosts` (`app/models/host.py`); `max_participants` is validated
`gt=0` by `HostCreate` (`app/schemas/host.py`) but stored as an integer. -/
structure Host where
  id : String
  max_participants : Int
deriving DecidableEq, Repr

/-- Row of `event_days` (`app/models/event_day.py`). -/
structure EventDay where
  id : String
deriving DecidableEq, Repr

/-- Row of `registration_members` (`app/models/registration_member.py`);
only the columns used by the verified services are embedded. -/
structure RegistrationMember where
  id : String
  registration_id : Option Int
  name : String
  phone_number : String
  city : Option String
  age : Option Int
  gender : Gender
  status : RegistrationStatus
deriving DecidableEq, Repr

/-- Row of `host_assignments` (`app/models/host_assignment.py`); the
foreign-key columns are nullable in the schema, hence `Option`. -/
structure HostAssignment where
  id : String
  host_id : Option String
  registration_member_id : Option String
  event_day_id : Option String
  assignment_notes : Option String
  assigned_by : Option String
deriving DecidableEq, Repr

/-- Row of `vehicle_sharing` (`app/models/vehicle_sharing.py`). -/
structure VehicleSharing where
  id : String
  vehicle_owner_member_id : Option String
  co_traveler_member_id : Option String
  sharing_notes : Option String
deriving DecidableEq, Repr

/-- Row of `daily_preferences` (`app/models/daily_preference.py`); every
preference column is nullable. -/
structure DailyPreference where
  id : String
  event_day_id : Option String
  registration_id : Option Int
  staying_with_yatra : Option Bool
  dinner_at_host : Option Bool
  breakfast_at_host : Option Bool
  lunch_with_yatra : Option Bool
  physical_limitations : Option String
  toilet_preference : Option ToiletPreference
deriving DecidableEq, Repr

/-- Row of `registrations` (`app/models/registration.py`), restricted to the
columns the dashboard copies into participants.  `registration_type` and
`transportation_mode` are embedded at their enum types (the dashboard response
schema `ParticipantWithPreferences` requires them). -/
structure Registration where
  id : Int
  registration_type : RegistrationType
  transportation_mode : TransportationMode
  has_empty_seats : Option Bool
  available_seats_count : Option Int
deriving DecidableEq, Repr

/-- An `HTTPException` raised by a service: status code and detail. -/
structure HttpError where
  code : Nat
  detail : String
deriving DecidableEq, Repr

/-! ## Host assignment service (`app/services/host_assignment.py`)

The database state visible to `HostAssignmentService`. -/

structure HADb where
  hosts : List Host
  members : List RegistrationMember
  event_days : List EventDay
  assignments : List HostAssignment
deriving DecidableEq, Repr

/-- Request schema `HostAssignmentCreate` (`app/schemas/host_assignment.py`). -/
structure HostAssignmentCreate where
  host_id : String
  registration_member_id : String
  event_day_id : String
  assignment_notes : Option String
deriving DecidableEq, Repr

/-- Modelled from the spec: the request schema `BulkHostAssignmentCreate` is
imported by `app/services/host_assignment.py` but its definition is missing
from the repository sources.  Its fields are exactly those the service reads
(`host_id`, `event_day_id`, `registration_member_ids`, `assignment_notes`);
the spec describes bulk assignment only as capacity-constrained assignment of
the requested members, so the member-id list is embedded as a plain list with
no extra validation. -/
structure BulkHostAssignmentCreate where
  host_id : String
  event_day_id : String
  registration_member_ids : List String
  assignment_notes : Option String
deriving DecidableEq, Repr

/-- Modelled from the spec: the response schema `BulkHostAssignmentResponse`
is imported by `app/services/host_assignment.py` but missing from the
repository sources; its fields are exactly those the service constructs. -/
structure BulkHostAssignmentResponse where
  total_requested : Nat
  successful_assignments : Nat
  failed_assignments : Nat
  assignments : List HostAssignment
  errors : List String
deriving DecidableEq, Repr

/-- `HostAssignmentService.create_assignment`: validates that the host, the
registration member and the event day exist (404 otherwise), rejects a second
assignment for the same member on the same event day (400), and otherwise
inserts one new `host_assignments` row.  `new_id` stands for `uuid.uuid4()`.
An error result leaves the database unchanged (the service rolls back). -/
def create_assignment (db : HADb) (assignment_data : HostAssignmentCreate)
    (assigned_by : String) (new_id : String) :
    Except HttpError (HADb × HostAssignment) :=
  match db.hosts.find? (fun h => h.id == assignment_data.host_id) with
  | none => .error ⟨404, "Host not found"⟩
  | some _ =>
  match db.members.find? (fun m => m.id == assignment_data.registration_member_id) with
  | none => .error ⟨404, "Registration member not found"⟩
  | some _ =>
  match db.event_days.find? (fun d => d.id == assignment_data.event_day_id) with
  | none => .error ⟨404, "Event day not found"⟩
  | some _ =>
  match db.assignments.find? (fun a =>
      a.registration_member_id == some assignment_data.registration_member_id &&
      a.event_day_id == some assignment_data.event_day_id) with
  | some _ => .error ⟨400, "Member already has an assignment for this event day"⟩
  | none =>
    let db_assignment : HostAssignment :=
      { id := new_id
        host_id := some assignment_data.host_id
        registration_member_id := some assignment_data.registration_member_id
        event_day_id := some assignment_data.event_day_id
        assignment_notes := assignment_data.assignment_notes
        assigned_by := some assigned_by }
    .ok ({ db with assignments := db.assignments ++ [db_assignment] }, db_assignment)

/-- The `for member_id in bulk_data.registration_member_ids` loop of
`create_bulk_assignments`: member ids already assigned on this event day get
an error message, every other id gets a new assignment row (consuming one
fresh uuid).  Returns the `successful_assignments` and `errors` lists. -/
def processBulkMembers (existing_assignment_member_ids : List String)
    (host_id event_day_id : String) (assignment_notes : Option String)
    (assigned_by : String) :
    List String → List String → List HostAssignment × List String
  | [], _ => ([], [])
  | member_id :: rest, fresh =>
    if existing_assignment_member_ids.contains member_id then
      let r := processBulkMembers existing_assignment_member_ids
        host_id event_day_id assignment_notes assigned_by rest fresh
      (r.1, (s!"Registration member {member_id} already has assignment for this event day") :: r.2)
    else
      let a : HostAssignment :=
        { id := fresh.headD ""
          host_id := some host_id
          registration_member_id := some member_id
          event_day_id := some event_day_id
          assignment_notes := assignment_notes
          assigned_by := some assigned_by }
      let r := processBulkMembers existing_assignment_member_ids
        host_id event_day_id assignment_notes assigned_by rest fresh.tail
      (a :: r.1, r.2)

/-- The `current_assignments` count query of `create_bulk_assignments`:
existing assignments for the requested host on the requested event day. -/
def currentAssignmentsCount (db : HADb) (bulk_data : BulkHostAssignmentCreate) : Nat :=
  (db.assignments.filter (fun a =>
      a.host_id == some bulk_data.host_id &&
      a.event_day_id == some bulk_data.event_day_id)).length

/-- The `existing_member_ids` query of `create_bulk_assignments`: ids of the
registration members that exist among the requested ids. -/
def existingMemberIds (db : HADb) (bulk_data : BulkHostAssignmentCreate) : List String :=
  (db.members.filter (fun m =>
      bulk_data.registration_member_ids.contains m.id)).map (fun m => m.id)

/-- The `existing_assignment_member_ids` query of `create_bulk_assignments`:
member ids among the requested ones that already have an assignment for the
requested event day. -/
def existingAssignmentMemberIds (db : HADb) (bulk_data : BulkHostAssignmentCreate) :
    List String :=
  (db.assignments.filter (fun a =>
      (match a.registration_member_id with
       | some m => bulk_data.registration_member_ids.contains m
       | none => false) &&
      a.event_day_id == some bulk_data.event_day_id)).filterMap
      (fun a => a.registration_member_id)

/-- `HostAssignmentService.create_bulk_assignments`: validates host and event
day (404), rejects the whole request with 400 when the existing assignment
count for this host and day plus the number of requested member ids exceeds
`host.max_participants`, validates that all requested members exist (404),
then processes the member ids one by one, skipping those that already have an
assignment for this event day.  `fresh` stands for the stream of
`uuid.uuid4()` values.  An error result leaves the database unchanged. -/
def create_bulk_assignments (db : HADb) (bulk_data : BulkHostAssignmentCreate)
    (assigned_by : String) (fresh : List String) :
    Except HttpError (HADb × BulkHostAssignmentResponse) :=
  match db.hosts.find? (fun h => h.id == bulk_data.host_id) with
  | none => .error ⟨404, "Host not found"⟩
  | some host =>
  match db.event_days.find? (fun d => d.id == bulk_data.event_day_id) with
  | none => .error ⟨404, "Event day not found"⟩
  | some _ =>
  if (currentAssignmentsCount db bulk_data : Int) +
      bulk_data.registration_member_ids.length > host.max_participants then
    .error ⟨400, "Host capacity exceeded"⟩
  else
  if bulk_data.registration_member_ids.any (fun mid =>
      !(existingMemberIds db bulk_data).contains mid) then
    .error ⟨404, "Registration members not found"⟩
  else
  let results :=
    processBulkMembers (existingAssignmentMemberIds db bulk_data) bulk_data.host_id
      bulk_data.event_day_id bulk_data.assignment_notes assigned_by
      bulk_data.registration_member_ids fresh
  .ok ({ db with assignments := db.assignments ++ results.1 },
    { total_requested := bulk_data.registration_member_ids.length
      successful_assignments := results.1.length
      failed_assignments := results.2.length
      assignments := results.1
      errors := results.2 })

/-! ## Registration member service (`app/services/registration_member.py`) -/

/-- `RegistrationMemberService.update_member_status`: a single SQL `UPDATE`
sets the status of the member with the given id (404 when no row is
affected); when the new status is `cancelled` every `host_assignments` row of
that member, across all event days, is deleted before the commit.  An error
result leaves the database unchanged (the service raises before commit). -/
def update_member_status (db : HADb) (member_id : String)
    (new_status : RegistrationStatus) : Except HttpError HADb :=
  let rowcount := (db.members.filter (fun m => m.id == member_id)).length
  if rowcount == 0 then
    .error ⟨404, "Registration member not found"⟩
  else
    let members := db.members.map (fun m =>
      if m.id == member_id then { m with status := new_status } else m)
    let assignments :=
      if new_status == RegistrationStatus.cancelled then
        db.assignments.filter (fun a => !(a.registration_member_id == some member_id))
      else
        db.assignments
    .ok { db with members := members, assignments := assignments }

/-! ## Vehicle sharing service (`app/services/vehicle_sharing.py`) -/

/-- Request schema `VehicleSharingCreate` (`app/schemas/vehicle_sharing.py`). -/
structure VehicleSharingCreate where
  vehicle_owner_member_id : String
  co_traveler_member_id : String
  sharing_notes : Option String
deriving DecidableEq, Repr

/-- Database state visible to `VehicleSharingService`. -/
structure VSDb where
  members : List RegistrationMember
  arrangements : List VehicleSharing
deriving DecidableEq, Repr

/-- `VehicleSharingService.create_arrangement`: validates that owner and
co-traveler exist (404), rejects with 400 when an arrangement between the two
members already exists in the same or in the reversed orientation, and
otherwise inserts one new `vehicle_sharing` row.  `new_id` stands for
`uuid.uuid4()`; an error result leaves the database unchanged. -/
def create_arrangement (db : VSDb) (arrangement_data : VehicleSharingCreate)
    (new_id : String) : Except HttpError (VSDb × VehicleSharing) :=
  match db.members.find? (fun m => m.id == arrangement_data.vehicle_owner_member_id) with
  | none => .error ⟨404, "Vehicle owner not found"⟩
  | some _ =>
  match db.members.find? (fun m => m.id == arrangement_data.co_traveler_member_id) with
  | none => .error ⟨404, "Co-traveler not found"⟩
  | some _ =>
  match db.arrangements.find? (fun v =>
      v.vehicle_owner_member_id == some arrangement_data.vehicle_owner_member_id &&
      v.co_traveler_member_id == some arrangement_data.co_traveler_member_id) with
  | some _ => .error ⟨400, "Vehicle sharing arrangement already exists between these members"⟩
  | none =>
  match db.arrangements.find? (fun v =>
      v.vehicle_owner_member_id == some arrangement_data.co_traveler_member_id &&
      v.co_traveler_member_id == some arrangement_data.vehicle_owner_member_id) with
  | some _ => .error ⟨400, "Reverse vehicle sharing arrangement already exists"⟩
  | none =>
    let db_arrangement : VehicleSharing :=
      { id := new_id
        vehicle_owner_member_id := some arrangement_data.vehicle_owner_member_id
        co_traveler_member_id := some arrangement_data.co_traveler_member_id
        sharing_notes := arrangement_data.sharing_notes }
    .ok ({ db with arrangements := db.arrangements ++ [db_arrangement] }, db_arrangement)

/-! ## Dashboard service (`app/services/dashboard.py`) -/

/-- The participant view `ParticipantWithPreferences`
(`app/schemas/dashboard.py`), restricted to the fields the dashboard
statistics and the verified preference resolution read. -/
structure ParticipantWithPreferences where
  id : String
  name : String
  phone_number : String
  city : Option String
  age : Option Int
  gender : Gender
  status : RegistrationStatus
  staying_with_yatra : Option Bool
  dinner_at_host : Option Bool
  breakfast_at_host : Option Bool
  lunch_with_yatra : Option Bool
  physical_limitations : Option String
  toilet_preference : Option ToiletPreference
  group_id : Int
  registration_type : RegistrationType
  transportation_mode : TransportationMode
  has_empty_seats : Option Bool
  available_seats_count : Option Int
deriving DecidableEq, Repr

/-- `day_preferences = [p for p in preferences if p.event_day_id == event_day.id]`
in `get_event_dashboard`: the registration's preference rows whose
`event_day_id` equals the schedule day being built. -/
def dayPreferencesFor (preferences : List DailyPreference) (event_day_id : String) :
    List DailyPreference :=
  preferences.filter (fun p => p.event_day_id == some event_day_id)

/-- The `for pref in day_preferences: member_preference = pref; break` loop in
`get_event_dashboard`: the first preference row for the day, if any. -/
def memberPreferenceFor (preferences : List DailyPreference) (event_day_id : String) :
    Option DailyPreference :=
  (dayPreferencesFor preferences event_day_id).head?

/-- The `ParticipantWithPreferences(...)` construction in
`get_event_dashboard`: member fields are copied, preference fields come from
`member_preference` when present and otherwise default to
`True`/`True`/`True`/`True`/`None`/`ToiletPreference.INDIAN`, and group
fields are copied from the registration. -/
def buildParticipant (member : RegistrationMember) (registration : Registration)
    (member_preference : Option DailyPreference) : ParticipantWithPreferences :=
  { id := member.id
    name := member.name
    phone_number := member.phone_number
    city := member.city
    age := member.age
    gender := member.gender
    status := member.status
    staying_with_yatra :=
      match member_preference with
      | some p => p.staying_with_yatra
      | none => some true
    dinner_at_host :=
      match member_preference with
      | some p => p.dinner_at_host
      | none => some true
    breakfast_at_host :=
      match member_preference with
      | some p => p.breakfast_at_host
      | none => some true
    lunch_with_yatra :=
      match member_preference with
      | some p => p.lunch_with_yatra
      | none => some true
    physical_limitations :=
      match member_preference with
      | some p => p.physical_limitations
      | none => none
    toilet_preference :=
      match member_preference with
      | some p => p.toilet_preference
      | none => some ToiletPreference.indian
    group_id := registration.id
    registration_type := registration.registration_type
    transportation_mode := registration.transportation_mode
    has_empty_seats := registration.has_empty_seats
    available_seats_count := registration.available_seats_count }

/-- One step of the `members_dict` collection loop in `get_event_dashboard`:
a member row is kept only when its id has not been seen yet. -/
def collectStep (acc : List RegistrationMember) (m : RegistrationMember) :
    List RegistrationMember :=
  if acc.any (fun x => x.id == m.id) then acc else acc ++ [m]

/-- The `members_dict` collection loop in `get_event_dashboard`: walking the
joined query rows, a member is kept only the first time its id is seen, so
the collected members (over which `total_participants`,
`confirmed_participants` and `waiting_participants` are counted) hold each
distinct member id exactly once. -/
def collectMembers (rows : List RegistrationMember) : List RegistrationMember :=
  rows.foldl collectStep []

/-- `total_participants` in `get_event_dashboard`: one count per collected
member. -/
def total_participants (rows : List RegistrationMember) : Nat :=
  (collectMembers rows).length

/-- `confirmed_participants` in `get_event_dashboard`. -/
def confirmed_participants (rows : List RegistrationMember) : Nat :=
  (collectMembers rows).countP (fun m => m.status == RegistrationStatus.confirmed)

/-- `waiting_participants` in `get_event_dashboard`. -/
def waiting_participants (rows : List RegistrationMember) : Nat :=
  (collectMembers rows).countP (fun m => m.status == RegistrationStatus.waiting)

/-! ### Summary statistics (`DashboardService._generate_summary_from_participants`
and the per-day toilet-preference block of `get_event_dashboard`).

Both code sites group the participant list into a dict keyed by `group_id`
(insertion-ordered, each group holding its participants in list order) and
accumulate counts only over groups whose members all have status
`confirmed` or `registered`. -/

/-- `p.status.value in ['confirmed', 'registered']`. -/
def attendingStatus (s : RegistrationStatus) : Bool :=
  s == RegistrationStatus.confirmed || s == RegistrationStatus.registered

/-- One step of building the `group_participants` dict keys: a participant's
`group_id` becomes a new key when it has not been seen yet. -/
def groupKeysStep (ks : List Int) (p : ParticipantWithPreferences) : List Int :=
  if ks.contains p.group_id then ks else ks ++ [p.group_id]

/-- Keys of the `group_participants` dict, in insertion order. -/
def groupKeys (l : List ParticipantWithPreferences) : List Int :=
  l.foldl groupKeysStep []

/-- The participants collected under key `g` of the `group_participants`
dict: the participants of the list whose `group_id` is `g`, in list order. -/
def groupOf (l : List ParticipantWithPreferences) (g : Int) :
    List ParticipantWithPreferences :=
  l.filter (fun p => p.group_id == g)

/-- The `group_participants` dict as an insertion-ordered association list. -/
def groupParticipants (l : List ParticipantWithPreferences) :
    List (Int × List ParticipantWithPreferences) :=
  (groupKeys l).map (fun g => (g, groupOf l g))

/-- `all(p.status.value in ['confirmed', 'registered'] for p in group)`. -/
def allAttending (ps : List ParticipantWithPreferences) : Bool :=
  ps.all (fun p => attendingStatus p.status)

/-- The accumulation pattern shared by every summary counter: for each group
of the `group_participants` dict whose members are all confirmed/registered,
add the number of its participants for which `contributes` holds. -/
def attendingGroupCount (l : List ParticipantWithPreferences)
    (contributes : ParticipantWithPreferences → Bool) : Nat :=
  (groupParticipants l).foldl (fun n gp =>
    if allAttending gp.2 then n + gp.2.countP contributes else n) 0

/-- `registration_types` counter for value `individual`
(`summary["individual_registrations"]`). -/
def individual_registrations (l : List ParticipantWithPreferences) : Nat :=
  attendingGroupCount l (fun p => p.registration_type == RegistrationType.individual)

/-- `registration_types` counter for value `group`
(`summary["group_registrations"]`). -/
def group_registrations (l : List ParticipantWithPreferences) : Nat :=
  attendingGroupCount l (fun p => p.registration_type == RegistrationType.group)

/-- `transportation_modes` counter for value `public`
(`summary["public_transport"]`). -/
def public_transport (l : List ParticipantWithPreferences) : Nat :=
  attendingGroupCount l (fun p => p.transportation_mode == TransportationMode.public)

/-- `transportation_modes` counter for value `private`
(`summary["private_transport"]`). -/
def private_transport (l : List ParticipantWithPreferences) : Nat :=
  attendingGroupCount l (fun p => p.transportation_mode == TransportationMode.private)

/-- `gender_distribution[g]`: the participant's gender (always `M` or `F`,
both of which key the dict) is tallied. -/
def gender_distribution (l : List ParticipantWithPreferences) (g : Gender) : Nat :=
  attendingGroupCount l (fun p => p.gender == g)

/-- The age bucket chosen by the `if participant.age <= 18 / <= 30 / <= 50 /
else` chain. -/
def ageGroup (a : Int) : String :=
  if a ≤ 18 then "0-18"
  else if a ≤ 30 then "19-30"
  else if a ≤ 50 then "31-50"
  else "51+"

/-- `age_groups[bucket]`: a participant is tallied when `participant.age` is
truthy (present and non-zero) and falls in the bucket. -/
def age_groups (l : List ParticipantWithPreferences) (bucket : String) : Nat :=
  attendingGroupCount l (fun p =>
    match p.age with
    | some a => !(a == 0) && ageGroup a == bucket
    | none => false)

/-- `city_distribution[c]`: a participant is tallied when `participant.city`
is truthy (present and non-empty) and equals `c`. -/
def city_distribution (l : List ParticipantWithPreferences) (c : String) : Nat :=
  attendingGroupCount l (fun p =>
    match p.city with
    | some s => !(s == "") && s == c
    | none => false)

/-- `toilet_preferences[t]` of the summary: a participant is tallied when
`participant.toilet_preference` is present (both enum values key the dict). -/
def toilet_preferences (l : List ParticipantWithPreferences)
    (t : ToiletPreference) : Nat :=
  attendingGroupCount l (fun p => p.toilet_preference == some t)

/-- `daily_toilet_preferences[t]` for one schedule day in
`get_event_dashboard`: the same grouped accumulation applied to that day's
participant list. -/
def daily_toilet_preferences (day_participants : List ParticipantWithPreferences)
    (t : ToiletPreference) : Nat :=
  attendingGroupCount day_participants (fun p => p.toilet_preference == some t)

/-- A participant of `l` belongs to a fully attending group: every
participant of `l` in the same group has status `confirmed` or `registered`.
This is the specification-side notion the summary counters are claimed to
restrict to. -/
def fullyAttending (l : List ParticipantWithPreferences)
    (p : ParticipantWithPreferences) : Bool :=
  (l.filter (fun q => q.group_id == p.group_id)).all (fun q => attendingStatus q.status)

/-! ## Specification-side invariants -/

/-- Capacity invariant: for every host and every event-day id, the number of
host assignments for that host on that day does not exceed the host's
`max_participants`. -/
def capacityOk (db : HADb) : Prop :=
  ∀ h ∈ db.hosts, ∀ day_id : String,
    ((db.assignments.filter (fun a =>
        a.host_id == some h.id && a.event_day_id == some day_id)).length : Int)
      ≤ h.max_participants

/-- Uniqueness invariant: every registration member has at most one host
assignment per event day. -/
def memberDayUnique (db : HADb) : Prop :=
  ∀ mid day_id : String,
    (db.assignments.filter (fun a =>
        a.registration_member_id == some mid &&
        a.event_day_id == some day_id)).length ≤ 1

/-- An arrangement links the unordered pair of members `{a, b}`: it pairs
them in either orientation. -/
def linksPair (a b : String) (v : VehicleSharing) : Bool :=
  (v.vehicle_owner_member_id == some a && v.co_traveler_member_id == some b) ||
  (v.vehicle_owner_member_id == some b && v.co_traveler_member_id == some a)

/-- Pair-uniqueness invariant: any two members are linked by at most one
vehicle-sharing arrangement, counting both orientations. -/
def pairUnique (db : VSDb) : Prop :=
  ∀ a b : String, (db.arrangements.filter (linksPair a b)).length ≤ 1

/-! ## Concrete example data

Small concrete database states and requests, used to evaluate the embedded
services on explicit inputs. -/

/-- A concrete registration member row. -/
def exMember (i : String) (s : RegistrationStatus) : RegistrationMember :=
  { id := i, registration_id := some 1, name := "N", phone_number := "1",
    city := some "Surat", age := some 25, gender := Gender.M, status := s }

/-- A host-assignment database with one host of capacity 1, two registered
members and one event day. -/
def exDbCap1 : HADb :=
  { hosts := [⟨"h1", 1⟩]
    members := [exMember "m1" RegistrationStatus.registered,
                exMember "m2" RegistrationStatus.registered]
    event_days := [⟨"d1"⟩]
    assignments := [] }

/-- The assignment row created by the first single create on `exDbCap1`. -/
def exAssign1 : HostAssignment :=
  { id := "a1", host_id := some "h1", registration_member_id := some "m1",
    event_day_id := some "d1", assignment_notes := none, assigned_by := some "staff" }

/-- The assignment row created by the second single create on `exDbCap1`. -/
def exAssign2 : HostAssignment :=
  { id := "a2", host_id := some "h1", registration_member_id := some "m2",
    event_day_id := some "d1", assignment_notes := none, assigned_by := some "staff" }

/-- `exDbCap1` after the first single create. -/
def exDbCap1After1 : HADb := { exDbCap1 with assignments := [exAssign1] }

/-- `exDbCap1` after both single creates: two assignments for host `h1` on
day `d1`, against a capacity of 1. -/
def exDbCap1After2 : HADb := { exDbCap1 with assignments := [exAssign1, exAssign2] }

/-- A host-assignment database with one host of capacity 5, one registered
member and one event day. -/
def exDbCap5 : HADb :=
  { hosts := [⟨"h1", 5⟩]
    members := [exMember "m1" RegistrationStatus.registered]
    event_days := [⟨"d1"⟩]
    assignments := [] }

/-- A bulk request that names the same member twice. -/
def exBulkDup : BulkHostAssignmentCreate :=
  { host_id := "h1", event_day_id := "d1",
    registration_member_ids := ["m1", "m1"], assignment_notes := none }

/-- A bulk request for two members against capacity 1. -/
def exBulkTwo : BulkHostAssignmentCreate :=
  { host_id := "h1", event_day_id := "d1",
    registration_member_ids := ["m1", "m2"], assignment_notes := none }

/-- A bulk request for one member. -/
def exBulkOne : BulkHostAssignmentCreate :=
  { host_id := "h1", event_day_id := "d1",
    registration_member_ids := ["m1"], assignment_notes := none }

/-- A vehicle-sharing database with two members and one arrangement from
`m1` to `m2`. -/
def exVsDb : VSDb :=
  { members := [exMember "m1" RegistrationStatus.registered,
                exMember "m2" RegistrationStatus.registered]
    arrangements := [{ id := "v1", vehicle_owner_member_id := some "m1",
                       co_traveler_member_id := some "m2", sharing_notes := none }] }

/-- A concrete participant in group 1 (confirmed). -/
def exPart1 : ParticipantWithPreferences :=
  { id := "p1", name := "Asha", phone_number := "900", city := some "Surat",
    age := some 25, gender := Gender.F, status := RegistrationStatus.confirmed,
    staying_with_yatra := some true, dinner_at_host := some true,
    breakfast_at_host := some true, lunch_with_yatra := some true,
    physical_limitations := none, toilet_preference := some ToiletPreference.indian,
    group_id := 1, registration_type := RegistrationType.group,
    transportation_mode := TransportationMode.public,
    has_empty_seats := some false, available_seats_count := some 0 }

/-- A concrete participant in group 1 (waiting), making group 1 not fully
attending. -/
def exPart2 : ParticipantWithPreferences :=
  { exPart1 with
    id := "p2"
    status := RegistrationStatus.waiting
    gender := Gender.M }

/-- A concrete participant alone in group 2 (registered). -/
def exPart3 : ParticipantWithPreferences :=
  { exPart1 with
    id := "p3"
    status := RegistrationStatus.registered
    group_id := 2
    registration_type := RegistrationType.individual
    transportation_mode := TransportationMode.private
    toilet_preference := some ToiletPreference.western }

/-- A concrete participant list: group 1 contains a waiting member, group 2
is fully attending. -/
def exParticipants : List ParticipantWithPreferences := [exPart1, exPart2, exPart3]

/-- Concrete member rows as returned by the dashboard join: the same member
appears twice. -/
def exRows : List RegistrationMember :=
  [exMember "m1" RegistrationStatus.confirmed,
   exMember "m2" RegistrationStatus.waiting,
   exMember "m1" RegistrationStatus.confirmed]

/-- Concrete daily preference row for day `d1`. -/
def exPref1 : DailyPreference :=
  { id := "pr1", event_day_id := some "d1", registration_id := some 1,
    staying_with_yatra := some false, dinner_at_host := some true,
    breakfast_at_host := some false, lunch_with_yatra := some true,
    physical_limitations := some "knee", toilet_preference := some ToiletPreference.western }

/-- Concrete daily preference row for day `d2`. -/
def exPref2 : DailyPreference :=
  { exPref1 with
    id := "pr2"
    event_day_id := some "d2" }

/-- Concrete preference list of one registration. -/
def exPrefs : List DailyPreference := [exPref2, exPref1]

/-- Concrete registration row. -/
def exRegistration : Registration :=
  { id := 1, registration_type := RegistrationType.group,
    transportation_mode := TransportationMode.public,
    has_empty_seats := some false, available_seats_count := some 0 }

/-- A host-assignment database used for the status-update example: member
`m1` holds assignments on two days, member `m2` holds one. -/
def exDbStatus : HADb :=
  { hosts := [⟨"h1", 5⟩]
    members := [exMember "m1" RegistrationStatus.confirmed,
                exMember "m2" RegistrationStatus.confirmed]
    event_days := [⟨"d1"⟩, ⟨"d2"⟩]
    assignments :=
      [{ id := "a1", host_id := some "h1", registration_member_id := some "m1",
         event_day_id := some "d1", assignment_notes := none, assigned_by := some "staff" },
       { id := "a2", host_id := some "h1", registration_member_id := some "m1",
         event_day_id := some "d2", assignment_notes := none, assigned_by := some "staff" },
       { id := "a3", host_id := some "h1", registration_member_id := some "m2",
         event_day_id := some "d1", assignment_notes := none, assigned_by := some "staff" }] }

/-- The duplicate-request assignment row: same member `m1` as `exAssign1`
but with fresh id `a2`. -/
def exDupAssign2 : HostAssignment :=
  { id := "a2", host_id := some "h1", registration_member_id := some "m1",
    event_day_id := some "d1", assignment_notes := none, assigned_by := some "staff" }

/-- `exDbCap5` after the duplicate bulk request: two assignments for member
`m1` on day `d1`. -/
def exDbCap5AfterDup : HADb :=
  { exDbCap5 with assignments := [exAssign1, exDupAssign2] }

/-- Bulk response of the duplicate request on `exDbCap5`. -/
def exBulkDupResp : BulkHostAssignmentResponse :=
  { total_requested := 2, successful_assignments := 2, failed_assignments := 0,
    assignments := [exAssign1, exDupAssign2], errors := [] }

/-- `exDbCap5` after the single-member bulk request. -/
def exDbCap5After1 : HADb := { exDbCap5 with assignments := [exAssign1] }

/-- Bulk response of the single-member request on `exDbCap5`. -/
def exBulkOneResp : BulkHostAssignmentResponse :=
  { total_requested := 1, successful_assignments := 1, failed_assignments := 0,
    assignments := [exAssign1], errors := [] }

/-! ## Lemmas about the grouped accumulation of the dashboard summary -/

theorem countP_and_split {α : Type} (l : List α) (A f : α → Bool) :
    l.countP f = l.countP (fun a => A a && f a) + l.countP (fun a => !(A a) && f a) := by
  induction l with
  | nil => simp
  | cons x xs ih =>
    cases hA : A x <;> cases hf : f x <;>
      simp [List.countP_cons, hA, hf, ih] <;> omega

theorem groupKeysStep_sub (ks : List Int) (p : ParticipantWithPreferences) :
    ks ⊆ groupKeysStep ks p := by
  unfold groupKeysStep
  split
  · exact fun a h => h
  · exact fun a h => List.mem_append_left _ h

theorem foldl_groupKeysStep_sub (l : List ParticipantWithPreferences) :
    ∀ ks : List Int, ks ⊆ l.foldl groupKeysStep ks := by
  induction l with
  | nil => intro ks; exact fun a h => h
  | cons p l ih =>
    intro ks
    simp only [List.foldl_cons]
    exact List.Subset.trans (groupKeysStep_sub ks p) (ih _)

theorem mem_foldl_groupKeysStep (l : List ParticipantWithPreferences) :
    ∀ (ks : List Int) (p : ParticipantWithPreferences), p ∈ l →
      p.group_id ∈ l.foldl groupKeysStep ks := by
  induction l with
  | nil => intro ks p hp; exact absurd hp (List.not_mem_nil p)
  | cons q l ih =>
    intro ks p hp
    simp only [List.foldl_cons]
    rcases List.mem_cons.mp hp with h | h
    · subst h
      apply foldl_groupKeysStep_sub
      unfold groupKeysStep
      split
      · next hc => exact List.elem_iff.mp hc
      · exact List.mem_append_right _ (List.mem_singleton.mpr rfl)
    · exact ih _ p h

theorem nodup_foldl_groupKeysStep (l : List ParticipantWithPreferences) :
    ∀ ks : List Int, ks.Nodup → (l.foldl groupKeysStep ks).Nodup := by
  induction l with
  | nil => intro ks h; exact h
  | cons q l ih =>
    intro ks h
    simp only [List.foldl_cons]
    apply ih
    unfold groupKeysStep
    split
    · exact h
    · next hc =>
      have hnm : q.group_id ∉ ks := fun hm => hc (List.elem_iff.mpr hm)
      simp [List.nodup_append, h, hnm]

theorem groupKeys_nodup (l : List ParticipantWithPreferences) : (groupKeys l).Nodup :=
  nodup_foldl_groupKeysStep l [] List.nodup_nil

theorem mem_groupKeys (l : List ParticipantWithPreferences)
    (p : ParticipantWithPreferences) (h : p ∈ l) : p.group_id ∈ groupKeys l :=
  mem_foldl_groupKeysStep l [] p h

theorem groupOf_countP_eq (l : List ParticipantWithPreferences) (g : Int)
    (f : ParticipantWithPreferences → Bool) :
    (groupOf l g).countP f = l.countP (fun p => (p.group_id == g) && f p) := by
  unfold groupOf
  rw [List.countP_filter]
  exact List.countP_congr (fun p _ => by
    cases hg : p.group_id == g <;> cases hf : f p <;> simp [hg, hf])

theorem sum_countP_over_keys (f : ParticipantWithPreferences → Bool) :
    ∀ ks : List Int, ks.Nodup → ∀ l : List ParticipantWithPreferences,
      (∀ p ∈ l, p.group_id ∈ ks) →
      (ks.map (fun g => (groupOf l g).countP f)).sum = l.countP f := by
  intro ks
  induction ks with
  | nil =>
    intro _ l hcov
    have hl : l = [] :=
      List.eq_nil_iff_forall_not_mem.mpr
        (fun p hp => absurd (hcov p hp) (List.not_mem_nil _))
    simp [hl]
  | cons g ks ih =>
    intro hnd l hcov
    have hg : g ∉ ks := (List.nodup_cons.mp hnd).1
    have hnd' : ks.Nodup := (List.nodup_cons.mp hnd).2
    have hcov' : ∀ p ∈ l.filter (fun p => !(p.group_id == g)), p.group_id ∈ ks := by
      intro p hp
      have hm := List.mem_filter.mp hp
      rcases List.mem_cons.mp (hcov p hm.1) with h | h
      · exfalso
        have hb := hm.2
        rw [h] at hb
        simp at hb
      · exact h
    have hIH := ih hnd' (l.filter (fun p => !(p.group_id == g))) hcov'
    have hmap : ks.map (fun g' => (groupOf l g').countP f)
        = ks.map (fun g' => (groupOf (l.filter (fun p => !(p.group_id == g))) g').countP f) := by
      apply List.map_congr_left
      intro g' hg'
      have hne : g' ≠ g := fun h => hg (h ▸ hg')
      unfold groupOf
      rw [List.filter_filter]
      apply congrArg (List.countP f)
      apply List.filter_congr
      intro p _
      cases hb : p.group_id == g' with
      | true =>
        have hpg : p.group_id = g' := by simpa using hb
        have : (p.group_id == g) = false := by simp [hpg, hne]
        simp [this]
      | false => simp
    have h2 : (l.filter (fun p => !(p.group_id == g))).countP f
        = l.countP (fun p => !(p.group_id == g) && f p) := by
      rw [List.countP_filter]
      exact List.countP_congr (fun p _ => by
        cases hgp : p.group_id == g <;> cases hf : f p <;> simp [hgp, hf])
    simp only [List.map_cons, List.sum_cons]
    rw [hmap, hIH, h2, groupOf_countP_eq]
    exact (countP_and_split l (fun p => p.group_id == g) f).symm

theorem attendingGroupCount_foldl_sum
    (f : ParticipantWithPreferences → Bool) :
    ∀ (gs : List (Int × List ParticipantWithPreferences)) (n : Nat),
      gs.foldl (fun n gp => if allAttending gp.2 then n + gp.2.countP f else n) n
      = n + (gs.map (fun gp => if allAttending gp.2 then gp.2.countP f else 0)).sum := by
  intro gs
  induction gs with
  | nil => intro n; simp
  | cons gp gs ih =>
    intro n
    simp only [List.foldl_cons, List.map_cons, List.sum_cons]
    rw [ih]
    cases h : allAttending gp.2 <;> simp [h] <;> omega

theorem mem_groupOf_group_id (l : List ParticipantWithPreferences) (g : Int)
    (p : ParticipantWithPreferences) (hp : p ∈ groupOf l g) : p.group_id = g := by
  have := (List.mem_filter.mp hp).2
  simpa using this

theorem fullyAttending_mem_groupOf (l : List ParticipantWithPreferences) (g : Int)
    (p : ParticipantWithPreferences) (hp : p ∈ groupOf l g) :
    fullyAttending l p = allAttending (groupOf l g) := by
  unfold fullyAttending allAttending groupOf
  rw [mem_groupOf_group_id l g p hp]

/-- The central fact about every summary counter: the grouped accumulation
over fully attending groups equals a direct count over exactly those
participants that belong to a fully attending group. -/
theorem attendingGroupCount_eq_filter (l : List ParticipantWithPreferences)
    (f : ParticipantWithPreferences → Bool) :
    attendingGroupCount l f
      = (l.filter (fun p => fullyAttending l p)).countP f := by
  unfold attendingGroupCount groupParticipants
  rw [attendingGroupCount_foldl_sum, List.map_map]
  rw [List.countP_filter]
  have hcong : ∀ p ∈ l, (f p && fullyAttending l p) = true ↔
      ((fun p => fullyAttending l p && f p) p) = true := by
    intro p _
    cases h1 : f p <;> cases h2 : fullyAttending l p <;> simp [h1, h2]
  rw [List.countP_congr hcong]
  rw [← sum_countP_over_keys (fun p => fullyAttending l p && f p) (groupKeys l)
    (groupKeys_nodup l) l (fun p hp => mem_groupKeys l p hp)]
  simp only [Nat.zero_add]
  apply congrArg List.sum
  apply List.map_congr_left
  intro g _
  show (if allAttending (groupOf l g) then (groupOf l g).countP f else 0)
      = (groupOf l g).countP (fun p => fullyAttending l p && f p)
  cases hA : allAttending (groupOf l g) with
  | true =>
    simp only [if_pos]
    apply (List.countP_congr _).symm
    intro p hp
    rw [fullyAttending_mem_groupOf l g p hp, hA]
    simp
  | false =>
    simp only [if_neg, Bool.false_eq_true, not_false_iff]
    symm
    rw [List.countP_eq_zero]
    intro p hp
    rw [fullyAttending_mem_groupOf l g p hp, hA]
    simp

/-- `attendingStatus` is false exactly at `waiting` and `cancelled`. -/
theorem attendingStatus_false_iff (s : RegistrationStatus) :
    attendingStatus s = false ↔
      (s = RegistrationStatus.waiting ∨ s = RegistrationStatus.cancelled) := by
  cases s <;> simp [attendingStatus]

/-- A participant fails `fullyAttending` exactly when some participant of its
group has status `waiting` or `cancelled`. -/
theorem fullyAttending_false_iff (l : List ParticipantWithPreferences)
    (p : ParticipantWithPreferences) :
    fullyAttending l p = false ↔
      ∃ q ∈ l, q.group_id = p.group_id ∧
        (q.status = RegistrationStatus.waiting ∨ q.status = RegistrationStatus.cancelled) := by
  unfold fullyAttending
  constructor
  · intro h
    have h' : ¬ ∀ q ∈ l.filter (fun q => q.group_id == p.group_id),
        attendingStatus q.status = true := by
      rw [← List.all_eq_true, h]
      simp
    push_neg at h'
    obtain ⟨q, hq, hst⟩ := h'
    have hm := List.mem_filter.mp hq
    refine ⟨q, hm.1, by simpa using hm.2, ?_⟩
    exact (attendingStatus_false_iff q.status).mp (by simpa using hst)
  · rintro ⟨q, hql, hgid, hst⟩
    have hfa : attendingStatus q.status = false := (attendingStatus_false_iff q.status).mpr hst
    have hqf : q ∈ l.filter (fun q => q.group_id == p.group_id) :=
      List.mem_filter.mpr ⟨hql, by simp [hgid]⟩
    cases hall : (l.filter (fun q => q.group_id == p.group_id)).all
        (fun q => attendingStatus q.status) with
    | false => rfl
    | true =>
      exfalso
      have := List.all_eq_true.mp hall q hqf
      rw [hfa] at this
      exact Bool.false_ne_true this

/-! ## Lemmas about bulk host assignment -/

theorem processBulkMembers_lengths (E : List String) (hid did : String)
    (notes : Option String) (ab : String) : ∀ mids fresh : List String,
    (processBulkMembers E hid did notes ab mids fresh).1.length +
      (processBulkMembers E hid did notes ab mids fresh).2.length = mids.length := by
  intro mids
  induction mids with
  | nil => intro fresh; simp [processBulkMembers]
  | cons m rest ih =>
    intro fresh
    unfold processBulkMembers
    split
    · simp only [List.length_cons]
      rw [Nat.add_succ, ih fresh]
    · simp only [List.length_cons]
      rw [Nat.succ_add, ih fresh.tail]

theorem processBulkMembers_mem (E : List String) (hid did : String)
    (notes : Option String) (ab : String) : ∀ (mids fresh : List String)
    (a : HostAssignment), a ∈ (processBulkMembers E hid did notes ab mids fresh).1 →
    a.host_id = some hid ∧ a.event_day_id = some did ∧
    ∃ m, a.registration_member_id = some m ∧ m ∈ mids ∧ E.contains m = false := by
  intro mids
  induction mids with
  | nil => intro fresh a ha; simp [processBulkMembers] at ha
  | cons m rest ih =>
    intro fresh a ha
    unfold processBulkMembers at ha
    split at ha
    · obtain ⟨h1, h2, mm, h3, h4, h5⟩ := ih fresh a ha
      exact ⟨h1, h2, mm, h3, List.mem_cons_of_mem m h4, h5⟩
    · next hc =>
      rcases List.mem_cons.mp ha with h | h
      · subst h
        exact ⟨rfl, rfl, m, rfl, List.mem_cons_self m rest,
          Bool.eq_false_iff.mpr hc⟩
      · obtain ⟨h1, h2, mm, h3, h4, h5⟩ := ih fresh.tail a h
        exact ⟨h1, h2, mm, h3, List.mem_cons_of_mem m h4, h5⟩

theorem processBulkMembers_error_of_existing (E : List String) (hid did : String)
    (notes : Option String) (ab : String) : ∀ (mids fresh : List String) (m : String),
    m ∈ mids → E.contains m = true →
    (s!"Registration member {m} already has assignment for this event day")
      ∈ (processBulkMembers E hid did notes ab mids fresh).2 := by
  intro mids
  induction mids with
  | nil => intro fresh m hm; exact absurd hm (List.not_mem_nil m)
  | cons m0 rest ih =>
    intro fresh m hm hE
    unfold processBulkMembers
    rcases List.mem_cons.mp hm with h | h
    · subst h
      rw [if_pos hE]
      exact List.mem_cons_self _ _
    · split
      · exact List.mem_cons_of_mem _ (ih fresh m h hE)
      · exact ih fresh.tail m h hE

theorem processBulkMembers_filter_le_count (E : List String) (hid did : String)
    (notes : Option String) (ab : String) (mid : String) :
    ∀ mids fresh : List String,
    ((processBulkMembers E hid did notes ab mids fresh).1.filter
      (fun a => a.registration_member_id == some mid)).length ≤ mids.count mid := by
  intro mids
  induction mids with
  | nil => intro fresh; simp [processBulkMembers]
  | cons m rest ih =>
    intro fresh
    unfold processBulkMembers
    rw [List.count_cons]
    split
    · exact Nat.le_trans (ih fresh) (Nat.le_add_right _ _)
    · simp only [List.filter_cons]
      split
      · next hsome =>
        have hmeq : m = mid := by simpa using hsome
        have hcnt : (m == mid) = true := by simp [hmeq]
        simp only [List.length_cons, hcnt, if_true]
        have := ih fresh.tail
        omega
      · next hsome =>
        have hne : m ≠ mid := fun h => hsome (by simp [h])
        have hcnt : (m == mid) = false := by simp [hne]
        simp only [hcnt, Bool.false_eq_true, if_false]
        have := ih fresh.tail
        omega

theorem create_bulk_assignments_ok_inv
    (db : HADb) (bulk_data : BulkHostAssignmentCreate) (assigned_by : String)
    (fresh : List String) (db' : HADb) (resp : BulkHostAssignmentResponse)
    (hok : create_bulk_assignments db bulk_data assigned_by fresh = .ok (db', resp)) :
    ∃ host, db.hosts.find? (fun h => h.id == bulk_data.host_id) = some host ∧
      host.id = bulk_data.host_id ∧ host ∈ db.hosts ∧
      (currentAssignmentsCount db bulk_data : Int) +
        bulk_data.registration_member_ids.length ≤ host.max_participants ∧
      db'.hosts = db.hosts ∧ db'.members = db.members ∧
      db'.event_days = db.event_days ∧
      db'.assignments = db.assignments ++
        (processBulkMembers (existingAssignmentMemberIds db bulk_data)
          bulk_data.host_id bulk_data.event_day_id bulk_data.assignment_notes
          assigned_by bulk_data.registration_member_ids fresh).1 ∧
      resp.total_requested = bulk_data.registration_member_ids.length ∧
      resp.assignments = (processBulkMembers (existingAssignmentMemberIds db bulk_data)
          bulk_data.host_id bulk_data.event_day_id bulk_data.assignment_notes
          assigned_by bulk_data.registration_member_ids fresh).1 ∧
      resp.errors = (processBulkMembers (existingAssignmentMemberIds db bulk_data)
          bulk_data.host_id bulk_data.event_day_id bulk_data.assignment_notes
          assigned_by bulk_data.registration_member_ids fresh).2 ∧
      resp.successful_assignments = resp.assignments.length ∧
      resp.failed_assignments = resp.errors.length := by
  unfold create_bulk_assignments at hok
  cases hfh : db.hosts.find? (fun h => h.id == bulk_data.host_id) with
  | none => rw [hfh] at hok; simp at hok
  | some host =>
  rw [hfh] at hok
  cases hfd : db.event_days.find? (fun d => d.id == bulk_data.event_day_id) with
  | none =>
    rw [hfd] at hok
    simp at hok
  | some d =>
  rw [hfd] at hok
  simp only at hok
  split at hok
  · simp at hok
  · next hcap =>
    split at hok
    · simp at hok
    · simp only [Except.ok.injEq, Prod.mk.injEq] at hok
      obtain ⟨hdb, hresp⟩ := hok
      subst hdb
      subst hresp
      refine ⟨host, rfl, ?_, List.mem_of_find?_eq_some hfh, by omega,
        rfl, rfl, rfl, rfl, rfl, rfl, rfl, rfl, rfl⟩
      have := List.find?_some hfh
      simpa using this

theorem create_assignment_ok_inv (db : HADb) (data : HostAssignmentCreate)
    (ab nid : String) (db' : HADb) (a : HostAssignment)
    (hok : create_assignment db data ab nid = .ok (db', a)) :
    db.assignments.find? (fun x =>
      x.registration_member_id == some data.registration_member_id &&
      x.event_day_id == some data.event_day_id) = none ∧
    a = ⟨nid, some data.host_id, some data.registration_member_id,
      some data.event_day_id, data.assignment_notes, some ab⟩ ∧
    db'.assignments = db.assignments ++ [a] ∧
    db'.hosts = db.hosts ∧ db'.members = db.members ∧
    db'.event_days = db.event_days := by
  unfold create_assignment at hok
  cases h1 : db.hosts.find? (fun h => h.id == data.host_id) with
  | none => rw [h1] at hok; simp at hok
  | some _ =>
  rw [h1] at hok
  cases h2 : db.members.find? (fun m => m.id == data.registration_member_id) with
  | none => rw [h2] at hok; simp at hok
  | some _ =>
  rw [h2] at hok
  cases h3 : db.event_days.find? (fun d => d.id == data.event_day_id) with
  | none => rw [h3] at hok; simp at hok
  | some _ =>
  rw [h3] at hok
  cases h4 : db.assignments.find? (fun x =>
      x.registration_member_id == some data.registration_member_id &&
      x.event_day_id == some data.event_day_id) with
  | some _ => rw [h4] at hok; simp at hok
  | none =>
  rw [h4] at hok
  simp only [Except.ok.injEq, Prod.mk.injEq] at hok
  obtain ⟨hdb, hA⟩ := hok
  subst hdb
  subst hA
  exact ⟨rfl, rfl, rfl, rfl, rfl, rfl⟩

theorem create_assignment_rejects_duplicate (db : HADb) (data : HostAssignmentCreate)
    (ab nid : String)
    (hh : ∃ h ∈ db.hosts, h.id = data.host_id)
    (hm : ∃ m ∈ db.members, m.id = data.registration_member_id)
    (hd : ∃ d ∈ db.event_days, d.id = data.event_day_id)
    (ha : ∃ a ∈ db.assignments,
      a.registration_member_id = some data.registration_member_id ∧
      a.event_day_id = some data.event_day_id) :
    create_assignment db data ab nid =
      .error ⟨400, "Member already has an assignment for this event day"⟩ := by
  unfold create_assignment
  cases h1 : db.hosts.find? (fun h => h.id == data.host_id) with
  | none =>
    exfalso
    obtain ⟨h, hmem, hid⟩ := hh
    exact (List.find?_eq_none.mp h1 h hmem) (by simp [hid])
  | some _ =>
  cases h2 : db.members.find? (fun m => m.id == data.registration_member_id) with
  | none =>
    exfalso
    obtain ⟨m, hmem, hid⟩ := hm
    exact (List.find?_eq_none.mp h2 m hmem) (by simp [hid])
  | some _ =>
  cases h3 : db.event_days.find? (fun d => d.id == data.event_day_id) with
  | none =>
    exfalso
    obtain ⟨d, hmem, hid⟩ := hd
    exact (List.find?_eq_none.mp h3 d hmem) (by simp [hid])
  | some _ =>
  cases h4 : db.assignments.find? (fun x =>
      x.registration_member_id == some data.registration_member_id &&
      x.event_day_id == some data.event_day_id) with
  | none =>
    exfalso
    obtain ⟨a, hmem, hr, he⟩ := ha
    exact (List.find?_eq_none.mp h4 a hmem) (by simp [hr, he])
  | some _ => rfl

theorem create_assignment_preserves_memberDayUnique (db : HADb)
    (data : HostAssignmentCreate) (ab nid : String) (db' : HADb) (a : HostAssignment)
    (hu : memberDayUnique db)
    (hok : create_assignment db data ab nid = .ok (db', a)) :
    memberDayUnique db' := by
  obtain ⟨hnone, hA, hass, -, -, -⟩ := create_assignment_ok_inv db data ab nid db' a hok
  intro mid day
  rw [hass, List.filter_append, List.length_append]
  cases hp : (a.registration_member_id == some mid && a.event_day_id == some day) with
  | false =>
    simp only [List.filter_cons, hp, Bool.false_eq_true, if_false, List.filter_nil,
      List.length_nil, Nat.add_zero]
    exact hu mid day
  | true =>
    have hr : a.registration_member_id = some data.registration_member_id := by rw [hA]
    have he : a.event_day_id = some data.event_day_id := by rw [hA]
    have hand := (Bool.and_eq_true _ _).mp hp
    have hmid : data.registration_member_id = mid := by
      have h5 := hand.1
      rw [hr] at h5
      simpa using h5
    have hday : data.event_day_id = day := by
      have h5 := hand.2
      rw [he] at h5
      simpa using h5
    have hold : db.assignments.filter (fun x =>
        x.registration_member_id == some mid && x.event_day_id == some day) = [] := by
      rw [List.filter_eq_nil_iff]
      intro x hx
      have h5 := List.find?_eq_none.mp hnone x hx
      rw [hmid, hday] at h5
      exact h5
    rw [hold]
    simp [List.filter_cons, hp]

theorem processBulkMembers_append_unique
    (old : List HostAssignment) (E : List String) (hid did : String)
    (notes : Option String) (ab : String) (mids fresh : List String)
    (hnd : mids.Nodup)
    (hu : ∀ m d : String, (old.filter (fun a =>
      a.registration_member_id == some m && a.event_day_id == some d)).length ≤ 1)
    (hE : ∀ m ∈ mids, (∃ a ∈ old, a.registration_member_id = some m ∧
      a.event_day_id = some did) → E.contains m = true)
    (mid day : String) :
    ((old ++ (processBulkMembers E hid did notes ab mids fresh).1).filter
      (fun a => a.registration_member_id == some mid &&
        a.event_day_id == some day)).length ≤ 1 := by
  rw [List.filter_append, List.length_append]
  by_cases hmidmem : mid ∈ mids
  · by_cases hday : day = did
    · subst hday
      by_cases hold : ∃ a ∈ old, a.registration_member_id = some mid ∧
          a.event_day_id = some day
      · have hc := hE mid hmidmem hold
        have hnil : (processBulkMembers E hid day notes ab mids fresh).1.filter
            (fun a => a.registration_member_id == some mid &&
              a.event_day_id == some day) = [] := by
          rw [List.filter_eq_nil_iff]
          intro a ha hcontra
          obtain ⟨-, -, m, hm, -, hmc⟩ :=
            processBulkMembers_mem E hid day notes ab mids fresh a ha
          have h1 := ((Bool.and_eq_true _ _).mp hcontra).1
          have hr : a.registration_member_id = some mid := by simpa using h1
          rw [hr] at hm
          have hmeq : mid = m := by simpa using hm
          rw [← hmeq, hc] at hmc
          exact Bool.noConfusion hmc
        rw [hnil]
        simpa using hu mid day
      · have holdnil : old.filter (fun a =>
            a.registration_member_id == some mid && a.event_day_id == some day) = [] := by
          rw [List.filter_eq_nil_iff]
          intro a ha hcontra
          apply hold
          have h12 := (Bool.and_eq_true _ _).mp hcontra
          exact ⟨a, ha, by simpa using h12.1, by simpa using h12.2⟩
        rw [holdnil]
        simp only [List.length_nil, Nat.zero_add]
        have hfil : (processBulkMembers E hid day notes ab mids fresh).1.filter
            (fun a => a.registration_member_id == some mid &&
              a.event_day_id == some day)
            = (processBulkMembers E hid day notes ab mids fresh).1.filter
              (fun a => a.registration_member_id == some mid) := by
          apply List.filter_congr
          intro a ha
          obtain ⟨-, hdayeq, -⟩ :=
            processBulkMembers_mem E hid day notes ab mids fresh a ha
          rw [hdayeq]
          simp
        rw [hfil]
        have h1 := processBulkMembers_filter_le_count E hid day notes ab mid mids fresh
        have h2 := List.nodup_iff_count_le_one.mp hnd mid
        omega
    · have hnil : (processBulkMembers E hid did notes ab mids fresh).1.filter
          (fun a => a.registration_member_id == some mid &&
            a.event_day_id == some day) = [] := by
        rw [List.filter_eq_nil_iff]
        intro a ha hcontra
        obtain ⟨-, hdayeq, -⟩ :=
          processBulkMembers_mem E hid did notes ab mids fresh a ha
        have h2 := ((Bool.and_eq_true _ _).mp hcontra).2
        rw [hdayeq] at h2
        have hde : did = day := by simpa using h2
        exact hday hde.symm
      rw [hnil]
      simpa using hu mid day
  · have hnil : (processBulkMembers E hid did notes ab mids fresh).1.filter
        (fun a => a.registration_member_id == some mid &&
          a.event_day_id == some day) = [] := by
      rw [List.filter_eq_nil_iff]
      intro a ha hcontra
      obtain ⟨-, -, m, hm, hmmem, -⟩ :=
        processBulkMembers_mem E hid did notes ab mids fresh a ha
      have h1 := ((Bool.and_eq_true _ _).mp hcontra).1
      have hr : a.registration_member_id = some mid := by simpa using h1
      rw [hr] at hm
      have hmeq : mid = m := by simpa using hm
      rw [← hmeq] at hmmem
      exact hmidmem hmmem
    rw [hnil]
    simpa using hu mid day

theorem existing_contains_of_assignment (db : HADb)
    (bulk_data : BulkHostAssignmentCreate) (mid : String)
    (hmid : mid ∈ bulk_data.registration_member_ids)
    (hex : ∃ a ∈ db.assignments, a.registration_member_id = some mid ∧
      a.event_day_id = some bulk_data.event_day_id) :
    (existingAssignmentMemberIds db bulk_data).contains mid = true := by
  apply List.elem_iff.mpr
  obtain ⟨a0, ha0, hr0, he0⟩ := hex
  unfold existingAssignmentMemberIds
  apply List.mem_filterMap.mpr
  refine ⟨a0, List.mem_filter.mpr ⟨ha0, ?_⟩, hr0⟩
  simp [hr0, he0, hmid]

theorem bulk_preserves_memberDayUnique (db : HADb)
    (bulk_data : BulkHostAssignmentCreate) (assigned_by : String)
    (fresh : List String) (db' : HADb) (resp : BulkHostAssignmentResponse)
    (hnd : bulk_data.registration_member_ids.Nodup)
    (hu : memberDayUnique db)
    (hok : create_bulk_assignments db bulk_data assigned_by fresh = .ok (db', resp)) :
    memberDayUnique db' := by
  obtain ⟨host, -, -, -, -, -, -, -, hassign, -, -, -, -, -⟩ :=
    create_bulk_assignments_ok_inv db bulk_data assigned_by fresh db' resp hok
  intro mid day
  rw [hassign]
  exact processBulkMembers_append_unique db.assignments
    (existingAssignmentMemberIds db bulk_data) bulk_data.host_id
    bulk_data.event_day_id bulk_data.assignment_notes assigned_by
    bulk_data.registration_member_ids fresh hnd hu
    (fun m hm hex => existing_contains_of_assignment db bulk_data m hm hex) mid day

/-! ## Lemmas about vehicle sharing -/

theorem create_arrangement_ok_inv (db : VSDb) (d : VehicleSharingCreate)
    (nid : String) (db' : VSDb) (arr : VehicleSharing)
    (hok : create_arrangement db d nid = .ok (db', arr)) :
    db.arrangements.find? (fun v =>
      v.vehicle_owner_member_id == some d.vehicle_owner_member_id &&
      v.co_traveler_member_id == some d.co_traveler_member_id) = none ∧
    db.arrangements.find? (fun v =>
      v.vehicle_owner_member_id == some d.co_traveler_member_id &&
      v.co_traveler_member_id == some d.vehicle_owner_member_id) = none ∧
    arr = ⟨nid, some d.vehicle_owner_member_id, some d.co_traveler_member_id,
      d.sharing_notes⟩ ∧
    db'.arrangements = db.arrangements ++ [arr] ∧ db'.members = db.members := by
  unfold create_arrangement at hok
  cases h1 : db.members.find? (fun m => m.id == d.vehicle_owner_member_id) with
  | none => rw [h1] at hok; simp at hok
  | some _ =>
  rw [h1] at hok
  cases h2 : db.members.find? (fun m => m.id == d.co_traveler_member_id) with
  | none => rw [h2] at hok; simp at hok
  | some _ =>
  rw [h2] at hok
  cases h3 : db.arrangements.find? (fun v =>
      v.vehicle_owner_member_id == some d.vehicle_owner_member_id &&
      v.co_traveler_member_id == some d.co_traveler_member_id) with
  | some _ => rw [h3] at hok; simp at hok
  | none =>
  rw [h3] at hok
  cases h4 : db.arrangements.find? (fun v =>
      v.vehicle_owner_member_id == some d.co_traveler_member_id &&
      v.co_traveler_member_id == some d.vehicle_owner_member_id) with
  | some _ => rw [h4] at hok; simp at hok
  | none =>
  rw [h4] at hok
  simp only [Except.ok.injEq, Prod.mk.injEq] at hok
  obtain ⟨hdb, hA⟩ := hok
  subst hdb
  subst hA
  exact ⟨rfl, rfl, rfl, rfl, rfl⟩

/-! ## Lemmas about the dashboard member collection -/

theorem collectStep_sub (acc : List RegistrationMember) (m x : RegistrationMember)
    (hx : x ∈ acc) : x ∈ collectStep acc m := by
  unfold collectStep
  split
  · exact hx
  · exact List.mem_append_left _ hx

theorem foldl_collect_sub (rows : List RegistrationMember) :
    ∀ (acc : List RegistrationMember) (x : RegistrationMember), x ∈ acc →
      x ∈ rows.foldl collectStep acc := by
  induction rows with
  | nil => intro acc x hx; exact hx
  | cons m rows ih =>
    intro acc x hx
    simp only [List.foldl_cons]
    exact ih _ x (collectStep_sub acc m x hx)

theorem mem_foldl_collect (rows : List RegistrationMember) :
    ∀ (acc : List RegistrationMember) (x : RegistrationMember),
      x ∈ rows.foldl collectStep acc → x ∈ acc ∨ x ∈ rows := by
  induction rows with
  | nil => intro acc x hx; exact Or.inl hx
  | cons m rows ih =>
    intro acc x hx
    simp only [List.foldl_cons] at hx
    rcases ih _ x hx with h | h
    · unfold collectStep at h
      split at h
      · exact Or.inl h
      · rcases List.mem_append.mp h with h' | h'
        · exact Or.inl h'
        · exact Or.inr (List.mem_cons.mpr (Or.inl (List.mem_singleton.mp h')))
    · exact Or.inr (List.mem_cons_of_mem m h)

theorem foldl_collect_covers (rows : List RegistrationMember) :
    ∀ (acc : List RegistrationMember) (m : RegistrationMember), m ∈ rows →
      ∃ x ∈ rows.foldl collectStep acc, x.id = m.id := by
  induction rows with
  | nil => intro acc m hm; exact absurd hm (List.not_mem_nil m)
  | cons m0 rows ih =>
    intro acc m hm
    simp only [List.foldl_cons]
    rcases List.mem_cons.mp hm with h | h
    · subst h
      unfold collectStep
      split
      · next hc =>
        obtain ⟨x, hx, hxid⟩ := List.any_eq_true.mp hc
        exact ⟨x, foldl_collect_sub rows acc x hx, by simpa using hxid⟩
      · exact ⟨m, foldl_collect_sub rows _ m
          (List.mem_append_right _ (List.mem_singleton.mpr rfl)), rfl⟩
    · exact ih _ m h

theorem foldl_collect_ids_nodup (rows : List RegistrationMember) :
    ∀ acc : List RegistrationMember, (acc.map (fun x => x.id)).Nodup →
      ((rows.foldl collectStep acc).map (fun x => x.id)).Nodup := by
  induction rows with
  | nil => intro acc h; exact h
  | cons m rows ih =>
    intro acc h
    simp only [List.foldl_cons]
    apply ih
    unfold collectStep
    split
    · exact h
    · next hc =>
      have hnin : m.id ∉ acc.map (fun x => x.id) := by
        intro hmem
        obtain ⟨x, hx, hxid⟩ := List.mem_map.mp hmem
        have : acc.any (fun x => x.id == m.id) = true :=
          List.any_eq_true.mpr ⟨x, hx, by simp [hxid]⟩
        exact hc this
      simp [List.nodup_append, h, hnin]

theorem collectMembers_mem_iff (rows : List RegistrationMember)
    (hcons : ∀ m ∈ rows, ∀ m' ∈ rows, m.id = m'.id → m = m') :
    ∀ x, x ∈ collectMembers rows ↔ x ∈ rows := by
  intro x
  constructor
  · intro hx
    rcases mem_foldl_collect rows [] x hx with h | h
    · exact absurd h (List.not_mem_nil x)
    · exact h
  · intro hx
    obtain ⟨y, hy, hyid⟩ := foldl_collect_covers rows [] x hx
    have hyrows : y ∈ rows := by
      rcases mem_foldl_collect rows [] y hy with h | h
      · exact absurd h (List.not_mem_nil y)
      · exact h
    have : y = x := hcons y hyrows x hx hyid
    rw [← this]
    exact hy

theorem collectMembers_ids_nodup (rows : List RegistrationMember) :
    ((collectMembers rows).map (fun x => x.id)).Nodup :=
  foldl_collect_ids_nodup rows [] (by simp)

theorem status_partition (l : List RegistrationMember) :
    l.length = l.countP (fun m => m.status == RegistrationStatus.confirmed)
      + l.countP (fun m => m.status == RegistrationStatus.waiting)
      + l.countP (fun m => m.status == RegistrationStatus.registered)
      + l.countP (fun m => m.status == RegistrationStatus.cancelled) := by
  induction l with
  | nil => simp
  | cons m rest ih =>
    cases hst : m.status <;>
      (simp [List.countP_cons, hst, ih]; omega)

theorem collect_filter_ids_toFinset (rows : List RegistrationMember)
    (hcons : ∀ m ∈ rows, ∀ m' ∈ rows, m.id = m'.id → m = m')
    (p : RegistrationMember → Bool) :
    (((collectMembers rows).filter p).map (fun m => m.id)).toFinset =
      ((rows.filter p).map (fun m => m.id)).toFinset := by
  ext a
  simp only [List.mem_toFinset, List.mem_map, List.mem_filter]
  constructor
  · rintro ⟨m, ⟨hm, hp⟩, rfl⟩
    exact ⟨m, ⟨(collectMembers_mem_iff rows hcons m).mp hm, hp⟩, rfl⟩
  · rintro ⟨m, ⟨hm, hp⟩, rfl⟩
    exact ⟨m, ⟨(collectMembers_mem_iff rows hcons m).mpr hm, hp⟩, rfl⟩

theorem collect_countP_card (rows : List RegistrationMember)
    (hcons : ∀ m ∈ rows, ∀ m' ∈ rows, m.id = m'.id → m = m')
    (p : RegistrationMember → Bool) :
    (collectMembers rows).countP p =
      ((rows.filter p).map (fun m => m.id)).toFinset.card := by
  rw [List.countP_eq_length_filter]
  have hnodup : (((collectMembers rows).filter p).map (fun m => m.id)).Nodup :=
    (collectMembers_ids_nodup rows).sublist
      (((collectMembers rows).filter_sublist).map (fun m => m.id))
  rw [← collect_filter_ids_toFinset rows hcons p,
    List.toFinset_card_of_nodup hnodup, List.length_map]

/-! ## Claim theorems -/

/-- **C1**: every summary statistic of the event dashboard — the
registration-type counts, transportation-mode counts, gender distribution,
age groups, city distribution, toilet preferences, and the per-day
toilet-preference counts — is computed only over participants belonging to
fully attending groups (groups in which every member has status `confirmed`
or `registered`); each counter equals the direct count over exactly those
participants, and a participant's group fails `fullyAttending` precisely when
it contains a member with status `waiting` or `cancelled`, so participants of
such groups contribute to none of these statistics. -/
theorem summary_statistics_only_over_fully_attending_groups
    (l day_participants : List ParticipantWithPreferences) (g : Gender)
    (bucket c : String) (t u : ToiletPreference) :
    individual_registrations l = (l.filter (fun p => fullyAttending l p)).countP
        (fun p => p.registration_type == RegistrationType.individual) ∧
    group_registrations l = (l.filter (fun p => fullyAttending l p)).countP
        (fun p => p.registration_type == RegistrationType.group) ∧
    public_transport l = (l.filter (fun p => fullyAttending l p)).countP
        (fun p => p.transportation_mode == TransportationMode.public) ∧
    private_transport l = (l.filter (fun p => fullyAttending l p)).countP
        (fun p => p.transportation_mode == TransportationMode.private) ∧
    gender_distribution l g = (l.filter (fun p => fullyAttending l p)).countP
        (fun p => p.gender == g) ∧
    age_groups l bucket = (l.filter (fun p => fullyAttending l p)).countP
        (fun p => match p.age with
                  | some a => !(a == 0) && ageGroup a == bucket
                  | none => false) ∧
    city_distribution l c = (l.filter (fun p => fullyAttending l p)).countP
        (fun p => match p.city with
                  | some s => !(s == "") && s == c
                  | none => false) ∧
    toilet_preferences l t = (l.filter (fun p => fullyAttending l p)).countP
        (fun p => p.toilet_preference == some t) ∧
    daily_toilet_preferences day_participants u =
      (day_participants.filter (fun p => fullyAttending day_participants p)).countP
        (fun p => p.toilet_preference == some u) ∧
    (∀ p ∈ l, fullyAttending l p = false ↔
      ∃ q ∈ l, q.group_id = p.group_id ∧
        (q.status = RegistrationStatus.waiting ∨ q.status = RegistrationStatus.cancelled)) :=
  ⟨attendingGroupCount_eq_filter l _, attendingGroupCount_eq_filter l _,
   attendingGroupCount_eq_filter l _, attendingGroupCount_eq_filter l _,
   attendingGroupCount_eq_filter l _, attendingGroupCount_eq_filter l _,
   attendingGroupCount_eq_filter l _, attendingGroupCount_eq_filter l _,
   attendingGroupCount_eq_filter day_participants _,
   fun p _ => fullyAttending_false_iff l p⟩

/-- Witness for **C1** at a concrete participant list: group 1 contains a
waiting member and is excluded, group 2 is fully attending. -/
theorem summary_statistics_witness :
    individual_registrations exParticipants =
      (exParticipants.filter (fun p => fullyAttending exParticipants p)).countP
        (fun p => p.registration_type == RegistrationType.individual) :=
  (summary_statistics_only_over_fully_attending_groups exParticipants exParticipants
    Gender.F "19-30" "Surat" ToiletPreference.western ToiletPreference.indian).1

/-- **C2**: bulk host assignment is capacity-constrained.  Whenever the host
and the event day of the request exist, if the number of existing assignments
for that host on that day plus the number of requested member ids exceeds the
host's `max_participants`, `create_bulk_assignments` fails with HTTP 400 (the
error result carries no database state: the service rolls back, creating no
assignment); otherwise the capacity check passes, so any failure is a 404
from member validation, never the capacity error. -/
theorem bulk_assignment_capacity_constrained
    (db : HADb) (bulk_data : BulkHostAssignmentCreate) (assigned_by : String)
    (fresh : List String) (host : Host)
    (hh : db.hosts.find? (fun h => h.id == bulk_data.host_id) = some host)
    (hd : ∃ d, db.event_days.find? (fun d => d.id == bulk_data.event_day_id) = some d) :
    ((currentAssignmentsCount db bulk_data : Int) +
        bulk_data.registration_member_ids.length > host.max_participants →
      create_bulk_assignments db bulk_data assigned_by fresh =
        .error ⟨400, "Host capacity exceeded"⟩) ∧
    ((currentAssignmentsCount db bulk_data : Int) +
        bulk_data.registration_member_ids.length ≤ host.max_participants →
      ∀ e, create_bulk_assignments db bulk_data assigned_by fresh = .error e →
        e.code = 404) := by
  obtain ⟨d, hd⟩ := hd
  constructor
  · intro hover
    simp only [create_bulk_assignments, hh, hd]
    rw [if_pos hover]
  · intro hle e he
    simp only [create_bulk_assignments, hh, hd] at he
    rw [if_neg (by omega)] at he
    split at he
    · cases he
      rfl
    · simp at he

/-- Witness for **C2**: a host of capacity 1 with two requested members is
rejected with the capacity error. -/
theorem bulk_assignment_capacity_witness :
    exDbCap1.hosts.find? (fun h => h.id == exBulkTwo.host_id) = some ⟨"h1", 1⟩ ∧
    (currentAssignmentsCount exDbCap1 exBulkTwo : Int) +
      exBulkTwo.registration_member_ids.length > (1 : Int) ∧
    create_bulk_assignments exDbCap1 exBulkTwo "staff" ["a1", "a2"] =
      .error ⟨400, "Host capacity exceeded"⟩ :=
  ⟨by decide, by decide,
    (bulk_assignment_capacity_constrained exDbCap1 exBulkTwo "staff" ["a1", "a2"]
      ⟨"h1", 1⟩ (by decide) ⟨⟨"d1"⟩, by decide⟩).1 (by decide)⟩

/-- **C10**: every bulk request that passes the host, event-day, capacity and
member-existence validations is fully accounted for in the response:
`total_requested` is the number of requested member ids, successful plus
failed assignments equal `total_requested`, and the `assignments` list holds
exactly `successful_assignments` entries. -/
theorem bulk_response_accounts_for_every_member
    (db : HADb) (bulk_data : BulkHostAssignmentCreate) (assigned_by : String)
    (fresh : List String) (db' : HADb) (resp : BulkHostAssignmentResponse)
    (hok : create_bulk_assignments db bulk_data assigned_by fresh = .ok (db', resp)) :
    resp.total_requested = bulk_data.registration_member_ids.length ∧
    resp.successful_assignments + resp.failed_assignments = resp.total_requested ∧
    resp.assignments.length = resp.successful_assignments := by
  obtain ⟨host, -, -, -, -, -, -, -, -, htot, hass, herr, hsucc, hfail⟩ :=
    create_bulk_assignments_ok_inv db bulk_data assigned_by fresh db' resp hok
  refine ⟨htot, ?_, by rw [hsucc, hass]⟩
  rw [hsucc, hfail, hass, herr, htot]
  exact processBulkMembers_lengths _ _ _ _ _ _ _

/-- Witness for **C10**: a successful one-member bulk request. -/
theorem bulk_response_accounting_witness :
    create_bulk_assignments exDbCap5 exBulkOne "staff" ["a1"] =
      .ok (exDbCap5After1, exBulkOneResp) ∧
    exBulkOneResp.total_requested = exBulkOne.registration_member_ids.length :=
  ⟨by rfl,
    (bulk_response_accounts_for_every_member exDbCap5 exBulkOne "staff" ["a1"]
      exDbCap5After1 exBulkOneResp (by rfl)).1⟩

/-- **C3** fails as stated: `create_assignment` performs no capacity check at
all, so a sequence of two single assignment creations drives host `h1` (whose
`max_participants` is 1) to two assignments on day `d1`. -/
theorem capacity_invariant_counterexample :
    create_assignment exDbCap1 ⟨"h1", "m1", "d1", none⟩ "staff" "a1" =
      .ok (exDbCap1After1, exAssign1) ∧
    create_assignment exDbCap1After1 ⟨"h1", "m2", "d1", none⟩ "staff" "a2" =
      .ok (exDbCap1After2, exAssign2) ∧
    ((exDbCap1After2.assignments.filter (fun a =>
        a.host_id == some "h1" && a.event_day_id == some "d1")).length : Int) = 2 ∧
    ¬ capacityOk exDbCap1After2 := by
  refine ⟨by rfl, by rfl, by decide, fun h => ?_⟩
  exact absurd (h ⟨"h1", 1⟩ (by decide) "d1") (by decide)

/-- **C3 (amended)**: only `create_bulk_assignments` enforces the capacity
bound; starting from a state satisfying the capacity invariant (with distinct
host ids, as for primary keys), every successful bulk assignment — and hence
any sequence of them — preserves it.  Single `create_assignment` calls are
not covered: they perform no capacity check (see the counterexample). -/
theorem bulk_assignment_preserves_capacity
    (db : HADb) (bulk_data : BulkHostAssignmentCreate) (assigned_by : String)
    (fresh : List String) (db' : HADb) (resp : BulkHostAssignmentResponse)
    (hids : (db.hosts.map (fun h => h.id)).Nodup)
    (hcap : capacityOk db)
    (hok : create_bulk_assignments db bulk_data assigned_by fresh = .ok (db', resp)) :
    capacityOk db' := by
  obtain ⟨host, hfind, hhid, hhmem, hle, hhosts, -, -, hass, -, -, -, -, -⟩ :=
    create_bulk_assignments_ok_inv db bulk_data assigned_by fresh db' resp hok
  intro h hmem day_id
  rw [hhosts] at hmem
  rw [hass, List.filter_append, List.length_append]
  by_cases hcase : h.id = bulk_data.host_id ∧ day_id = bulk_data.event_day_id
  · obtain ⟨hch, hcd⟩ := hcase
    have hheq : h = host :=
      List.inj_on_of_nodup_map hids hmem hhmem (by rw [hch, hhid])
    subst hheq
    have hsucc_le : ((processBulkMembers (existingAssignmentMemberIds db bulk_data)
        bulk_data.host_id bulk_data.event_day_id bulk_data.assignment_notes
        assigned_by bulk_data.registration_member_ids fresh).1.filter (fun a =>
          a.host_id == some h.id && a.event_day_id == some day_id)).length
        ≤ bulk_data.registration_member_ids.length := by
      calc _ ≤ (processBulkMembers (existingAssignmentMemberIds db bulk_data)
            bulk_data.host_id bulk_data.event_day_id bulk_data.assignment_notes
            assigned_by bulk_data.registration_member_ids fresh).1.length :=
          (List.filter_sublist _).length_le
        _ ≤ bulk_data.registration_member_ids.length := by
          have := processBulkMembers_lengths (existingAssignmentMemberIds db bulk_data)
            bulk_data.host_id bulk_data.event_day_id bulk_data.assignment_notes
            assigned_by bulk_data.registration_member_ids fresh
          omega
    have hcur : (db.assignments.filter (fun a =>
        a.host_id == some h.id && a.event_day_id == some day_id)).length
        = currentAssignmentsCount db bulk_data := by
      unfold currentAssignmentsCount
      rw [hch, hcd]
    rw [hcur]
    omega
  · have hnil : (processBulkMembers (existingAssignmentMemberIds db bulk_data)
        bulk_data.host_id bulk_data.event_day_id bulk_data.assignment_notes
        assigned_by bulk_data.registration_member_ids fresh).1.filter (fun a =>
          a.host_id == some h.id && a.event_day_id == some day_id) = [] := by
      rw [List.filter_eq_nil_iff]
      intro a ha
      obtain ⟨hah, had, -⟩ := processBulkMembers_mem _ _ _ _ _ _ _ a ha
      rw [hah, had]
      intro hcontra
      apply hcase
      have h1 := (Bool.and_eq_true _ _).mp hcontra
      exact ⟨(by simpa using h1.1 : bulk_data.host_id = h.id).symm,
        (by simpa using h1.2 : bulk_data.event_day_id = day_id).symm⟩
    rw [hnil]
    simpa using hcap h hmem day_id

/-- Witness for **C3 (amended)**: the empty-assignment database satisfies the
invariant and still satisfies it after a successful bulk assignment. -/
theorem bulk_capacity_preservation_witness :
    (exDbCap5.hosts.map (fun h => h.id)).Nodup ∧ capacityOk exDbCap5 ∧
      capacityOk exDbCap5After1 := by
  have hcap : capacityOk exDbCap5 := by
    intro h hm day
    have hh : h = ⟨"h1", 5⟩ := by simpa [exDbCap5] using hm
    subst hh
    simp [exDbCap5]
  exact ⟨by decide, hcap,
    bulk_assignment_preserves_capacity exDbCap5 exBulkOne "staff" ["a1"]
      exDbCap5After1 exBulkOneResp (by decide) hcap (by rfl)⟩

/-- **C4** fails as stated: a bulk request that repeats the same member id
creates two assignments for that member on the same event day, because the
existing-assignment check is computed once against the database before the
loop and never sees duplicates within the request itself. -/
theorem member_day_unique_counterexample :
    create_bulk_assignments exDbCap5 exBulkDup "staff" ["a1", "a2"] =
      .ok (exDbCap5AfterDup, exBulkDupResp) ∧
    (exDbCap5AfterDup.assignments.filter (fun a =>
      a.registration_member_id == some "m1" &&
      a.event_day_id == some "d1")).length = 2 ∧
    ¬ memberDayUnique exDbCap5AfterDup := by
  refine ⟨by rfl, by decide, fun h => absurd (h "m1" "d1") (by decide)⟩

/-- **C4 (amended)**: a host assignment maps one member to one host for one
event day, provided the member ids within a single bulk request are distinct.
(1) `create_assignment` fails with HTTP 400 when the member already has an
assignment for that event day; (2) it preserves the at-most-one invariant;
(3) `create_bulk_assignments` reports an error for every requested member who
already has an assignment for that event day and creates no assignment for
them; (4) with distinct requested ids it preserves the at-most-one invariant.
The distinctness proviso is forced by the counterexample: a request repeating
one member id creates two assignments. -/
theorem member_day_assignment_unique
    (db : HADb) :
    (∀ (data : HostAssignmentCreate) (ab nid : String),
      (∃ h ∈ db.hosts, h.id = data.host_id) →
      (∃ m ∈ db.members, m.id = data.registration_member_id) →
      (∃ d ∈ db.event_days, d.id = data.event_day_id) →
      (∃ a ∈ db.assignments,
        a.registration_member_id = some data.registration_member_id ∧
        a.event_day_id = some data.event_day_id) →
      create_assignment db data ab nid =
        .error ⟨400, "Member already has an assignment for this event day"⟩) ∧
    (∀ (data : HostAssignmentCreate) (ab nid : String) (db' : HADb)
      (a : HostAssignment), memberDayUnique db →
      create_assignment db data ab nid = .ok (db', a) → memberDayUnique db') ∧
    (∀ (bulk_data : BulkHostAssignmentCreate) (ab : String) (fresh : List String)
      (db' : HADb) (resp : BulkHostAssignmentResponse),
      create_bulk_assignments db bulk_data ab fresh = .ok (db', resp) →
      ∀ mid ∈ bulk_data.registration_member_ids,
        (∃ a ∈ db.assignments, a.registration_member_id = some mid ∧
          a.event_day_id = some bulk_data.event_day_id) →
        (s!"Registration member {mid} already has assignment for this event day")
          ∈ resp.errors ∧
        ∀ a ∈ resp.assignments, a.registration_member_id ≠ some mid) ∧
    (∀ (bulk_data : BulkHostAssignmentCreate) (ab : String) (fresh : List String)
      (db' : HADb) (resp : BulkHostAssignmentResponse),
      bulk_data.registration_member_ids.Nodup → memberDayUnique db →
      create_bulk_assignments db bulk_data ab fresh = .ok (db', resp) →
      memberDayUnique db') := by
  refine ⟨?_, ?_, ?_, ?_⟩
  · intro data ab nid hh hm hd ha
    exact create_assignment_rejects_duplicate db data ab nid hh hm hd ha
  · intro data ab nid db' a hu hok
    exact create_assignment_preserves_memberDayUnique db data ab nid db' a hu hok
  · intro bulk_data ab fresh db' resp hok mid hmid hex
    obtain ⟨host, -, -, -, -, -, -, -, -, -, hrespass, hresperr, -, -⟩ :=
      create_bulk_assignments_ok_inv db bulk_data ab fresh db' resp hok
    have hcontains := existing_contains_of_assignment db bulk_data mid hmid hex
    constructor
    · rw [hresperr]
      exact processBulkMembers_error_of_existing _ _ _ _ _ _ _ mid hmid hcontains
    · intro a ha hreg
      rw [hrespass] at ha
      obtain ⟨-, -, m, hm, -, hmc⟩ := processBulkMembers_mem _ _ _ _ _ _ _ a ha
      rw [hreg] at hm
      have hmeq : mid = m := by simpa using hm
      rw [← hmeq, hcontains] at hmc
      exact Bool.noConfusion hmc
  · intro bulk_data ab fresh db' resp hnd hu hok
    exact bulk_preserves_memberDayUnique db bulk_data ab fresh db' resp hnd hu hok

/-- Witness for **C4 (amended)**: member `m1` already has an assignment on
day `d1`, so a second single create is rejected with HTTP 400. -/
theorem member_day_unique_witness :
    create_assignment exDbStatus ⟨"h1", "m1", "d1", none⟩ "staff" "a9" =
      .error ⟨400, "Member already has an assignment for this event day"⟩ :=
  (member_day_assignment_unique exDbStatus).1 ⟨"h1", "m1", "d1", none⟩ "staff" "a9"
    (by decide) (by decide) (by decide) (by decide)

/-- **C5**: a vehicle sharing is a pairing of two members with at most one
arrangement per unordered pair.  When both members exist, (i)
`create_arrangement` fails with HTTP 400 whenever an arrangement between the
two given members already exists in either orientation, and (ii) every
successful creation preserves the invariant that any two members are linked
by at most one arrangement. -/
theorem vehicle_sharing_pair_unique
    (db : VSDb) (arrangement_data : VehicleSharingCreate) (new_id : String)
    (hown : ∃ m ∈ db.members, m.id = arrangement_data.vehicle_owner_member_id)
    (hco : ∃ m ∈ db.members, m.id = arrangement_data.co_traveler_member_id) :
    ((∃ v ∈ db.arrangements,
        linksPair arrangement_data.vehicle_owner_member_id
          arrangement_data.co_traveler_member_id v = true) →
      ∃ e, create_arrangement db arrangement_data new_id = .error e ∧
        e.code = 400) ∧
    (pairUnique db → ∀ (db' : VSDb) (arr : VehicleSharing),
      create_arrangement db arrangement_data new_id = .ok (db', arr) →
      pairUnique db') := by
  constructor
  · intro hex
    unfold create_arrangement
    cases h1 : db.members.find?
        (fun m => m.id == arrangement_data.vehicle_owner_member_id) with
    | none =>
      exfalso
      obtain ⟨m, hmem, hid⟩ := hown
      exact (List.find?_eq_none.mp h1 m hmem) (by simp [hid])
    | some _ =>
    cases h2 : db.members.find?
        (fun m => m.id == arrangement_data.co_traveler_member_id) with
    | none =>
      exfalso
      obtain ⟨m, hmem, hid⟩ := hco
      exact (List.find?_eq_none.mp h2 m hmem) (by simp [hid])
    | some _ =>
    cases h3 : db.arrangements.find? (fun v =>
        v.vehicle_owner_member_id == some arrangement_data.vehicle_owner_member_id &&
        v.co_traveler_member_id == some arrangement_data.co_traveler_member_id) with
    | some _ =>
      exact ⟨⟨400, "Vehicle sharing arrangement already exists between these members"⟩,
        rfl, rfl⟩
    | none =>
    cases h4 : db.arrangements.find? (fun v =>
        v.vehicle_owner_member_id == some arrangement_data.co_traveler_member_id &&
        v.co_traveler_member_id == some arrangement_data.vehicle_owner_member_id) with
    | some _ =>
      exact ⟨⟨400, "Reverse vehicle sharing arrangement already exists"⟩, rfl, rfl⟩
    | none =>
      exfalso
      obtain ⟨v, hv, hlinks⟩ := hex
      unfold linksPair at hlinks
      rcases (Bool.or_eq_true _ _ ▸ hlinks : _ ∨ _) with h | h
      · exact (List.find?_eq_none.mp h3 v hv) h
      · exact (List.find?_eq_none.mp h4 v hv) h
  · intro hpu db' arr hok
    obtain ⟨hfwd, hrev, harr, hass, -⟩ :=
      create_arrangement_ok_inv db arrangement_data new_id db' arr hok
    have hfwd' := List.find?_eq_none.mp hfwd
    have hrev' := List.find?_eq_none.mp hrev
    intro a b
    rw [hass, List.filter_append, List.length_append]
    cases hp : linksPair a b arr with
    | false =>
      simp only [List.filter_cons, hp, Bool.false_eq_true, if_false,
        List.filter_nil, List.length_nil, Nat.add_zero]
      exact hpu a b
    | true =>
      have hold : db.arrangements.filter (linksPair a b) = [] := by
        rw [List.filter_eq_nil_iff]
        have hO : arr.vehicle_owner_member_id =
            some arrangement_data.vehicle_owner_member_id := by rw [harr]
        have hC : arr.co_traveler_member_id =
            some arrangement_data.co_traveler_member_id := by rw [harr]
        have hp' := hp
        unfold linksPair at hp'
        rw [hO, hC] at hp'
        rcases (Bool.or_eq_true _ _ ▸ hp' : _ ∨ _) with hAB | hAB
        · have hand := (Bool.and_eq_true _ _).mp hAB
          have haa : arrangement_data.vehicle_owner_member_id = a := by
            simpa using hand.1
          have hbb : arrangement_data.co_traveler_member_id = b := by
            simpa using hand.2
          subst haa
          subst hbb
          intro v hv hcontra
          unfold linksPair at hcontra
          rcases (Bool.or_eq_true _ _ ▸ hcontra : _ ∨ _) with h | h
          · exact hfwd' v hv h
          · exact hrev' v hv h
        · have hand := (Bool.and_eq_true _ _).mp hAB
          have haa : arrangement_data.vehicle_owner_member_id = b := by
            simpa using hand.1
          have hbb : arrangement_data.co_traveler_member_id = a := by
            simpa using hand.2
          subst haa
          subst hbb
          intro v hv hcontra
          unfold linksPair at hcontra
          rcases (Bool.or_eq_true _ _ ▸ hcontra : _ ∨ _) with h | h
          · exact hrev' v hv h
          · exact hfwd' v hv h
      rw [hold]
      simp [List.filter_cons, hp]

/-- Witness for **C5**: with an arrangement from `m1` to `m2` on file, a
request pairing `m2` with `m1` (the reversed orientation) is rejected with
HTTP 400. -/
theorem vehicle_sharing_pair_unique_witness :
    ∃ e, create_arrangement exVsDb ⟨"m2", "m1", none⟩ "v2" = .error e ∧
      e.code = 400 :=
  (vehicle_sharing_pair_unique exVsDb ⟨"m2", "m1", none⟩ "v2"
    (by decide) (by decide)).1 (by decide)

/-- **C6**: in the dashboard's daily schedule, whenever a preference row is
resolved for a member and a day, that row belongs to the preference list of
the member's registration, its `event_day_id` equals the day being built, and
all six preference fields of the constructed participant are copied from it. -/
theorem participant_preferences_match_event_day
    (member : RegistrationMember) (registration : Registration)
    (preferences : List DailyPreference) (event_day_id : String)
    (p : DailyPreference)
    (hp : memberPreferenceFor preferences event_day_id = some p) :
    p ∈ preferences ∧ p.event_day_id = some event_day_id ∧
    (buildParticipant member registration
      (memberPreferenceFor preferences event_day_id)).staying_with_yatra =
        p.staying_with_yatra ∧
    (buildParticipant member registration
      (memberPreferenceFor preferences event_day_id)).dinner_at_host =
        p.dinner_at_host ∧
    (buildParticipant member registration
      (memberPreferenceFor preferences event_day_id)).breakfast_at_host =
        p.breakfast_at_host ∧
    (buildParticipant member registration
      (memberPreferenceFor preferences event_day_id)).lunch_with_yatra =
        p.lunch_with_yatra ∧
    (buildParticipant member registration
      (memberPreferenceFor preferences event_day_id)).physical_limitations =
        p.physical_limitations ∧
    (buildParticipant member registration
      (memberPreferenceFor preferences event_day_id)).toilet_preference =
        p.toilet_preference := by
  have hmem : p ∈ dayPreferencesFor preferences event_day_id := by
    unfold memberPreferenceFor at hp
    exact List.mem_of_mem_head? (by simp [hp])
  have hfil := List.mem_filter.mp hmem
  refine ⟨hfil.1, by simpa using hfil.2, ?_, ?_, ?_, ?_, ?_, ?_⟩ <;>
    (rw [hp]; rfl)

/-- Witness for **C6**: on the concrete preference list the resolved row for
day `d1` is `exPref1`, which belongs to the list and carries day `d1`. -/
theorem participant_preferences_witness :
    memberPreferenceFor exPrefs "d1" = some exPref1 ∧
    exPref1 ∈ exPrefs ∧ exPref1.event_day_id = some "d1" :=
  ⟨by rfl,
    (participant_preferences_match_event_day (exMember "m1" RegistrationStatus.confirmed)
      exRegistration exPrefs "d1" exPref1 (by rfl)).1,
    (participant_preferences_match_event_day (exMember "m1" RegistrationStatus.confirmed)
      exRegistration exPrefs "d1" exPref1 (by rfl)).2.1⟩

/-- **C8**: a member with no daily-preference row matching a given event day
is reported for that day with the default preferences: the four meal/stay
flags true, no physical limitations, and toilet preference `indian`. -/
theorem participant_defaults_without_preference
    (member : RegistrationMember) (registration : Registration)
    (preferences : List DailyPreference) (event_day_id : String)
    (h : ∀ q ∈ preferences, ¬ q.event_day_id = some event_day_id) :
    (buildParticipant member registration
      (memberPreferenceFor preferences event_day_id)).staying_with_yatra = some true ∧
    (buildParticipant member registration
      (memberPreferenceFor preferences event_day_id)).dinner_at_host = some true ∧
    (buildParticipant member registration
      (memberPreferenceFor preferences event_day_id)).breakfast_at_host = some true ∧
    (buildParticipant member registration
      (memberPreferenceFor preferences event_day_id)).lunch_with_yatra = some true ∧
    (buildParticipant member registration
      (memberPreferenceFor preferences event_day_id)).physical_limitations = none ∧
    (buildParticipant member registration
      (memberPreferenceFor preferences event_day_id)).toilet_preference =
        some ToiletPreference.indian := by
  have hnil : dayPreferencesFor preferences event_day_id = [] := by
    rw [dayPreferencesFor, List.filter_eq_nil_iff]
    intro q hq hcontra
    exact h q hq (by simpa using hcontra)
  have hnone : memberPreferenceFor preferences event_day_id = none := by
    unfold memberPreferenceFor
    rw [hnil]
    rfl
  rw [hnone]
  exact ⟨rfl, rfl, rfl, rfl, rfl, rfl⟩

/-- Witness for **C8**: no preference row of the concrete list matches day
`d3`, so the participant carries the defaults. -/
theorem participant_defaults_witness :
    (∀ q ∈ exPrefs, ¬ q.event_day_id = some "d3") ∧
    (buildParticipant (exMember "m1" RegistrationStatus.confirmed) exRegistration
      (memberPreferenceFor exPrefs "d3")).toilet_preference =
        some ToiletPreference.indian :=
  ⟨by decide,
    (participant_defaults_without_preference (exMember "m1" RegistrationStatus.confirmed)
      exRegistration exPrefs "d3" (by decide)).2.2.2.2.2⟩

/-- **C9**: updating an existing member's status to `cancelled` deletes every
host assignment of that member across all event days; updating to any other
status leaves the assignment table unchanged; and in both cases the
assignments of every other member are untouched. -/
theorem update_member_status_assignment_effects
    (db : HADb) (member_id : String) (new_status : RegistrationStatus)
    (hmem : ∃ m ∈ db.members, m.id = member_id) :
    ∃ db', update_member_status db member_id new_status = .ok db' ∧
      (new_status = RegistrationStatus.cancelled →
        db'.assignments = db.assignments.filter (fun a =>
          !(a.registration_member_id == some member_id))) ∧
      (new_status ≠ RegistrationStatus.cancelled →
        db'.assignments = db.assignments) ∧
      (∀ mid : String, mid ≠ member_id →
        db'.assignments.filter (fun a => a.registration_member_id == some mid) =
        db.assignments.filter (fun a => a.registration_member_id == some mid)) := by
  have hrow : ((db.members.filter (fun m => m.id == member_id)).length == 0) = false := by
    obtain ⟨m, hm, hid⟩ := hmem
    have hmm : m ∈ db.members.filter (fun m => m.id == member_id) :=
      List.mem_filter.mpr ⟨hm, by simp [hid]⟩
    have hne := List.ne_nil_of_mem hmm
    have hlen : (db.members.filter (fun m => m.id == member_id)).length ≠ 0 := by
      simpa [List.length_eq_zero] using hne
    exact beq_eq_false_iff_ne.mpr hlen
  unfold update_member_status
  simp only [hrow, Bool.false_eq_true, if_false]
  refine ⟨_, rfl, ?_, ?_, ?_⟩
  · intro hc
    subst hc
    rfl
  · intro hc
    have hcc : (new_status == RegistrationStatus.cancelled) = false :=
      beq_eq_false_iff_ne.mpr hc
    simp [hcc]
  · intro mid hmid
    cases hcc : (new_status == RegistrationStatus.cancelled) with
    | false => simp [hcc]
    | true =>
      simp only [hcc, if_true]
      rw [List.filter_filter]
      apply List.filter_congr
      intro a _
      cases hr : (a.registration_member_id == some mid) with
      | false => simp
      | true =>
        have hra : a.registration_member_id = some mid := by simpa using hr
        have : (a.registration_member_id == some member_id) = false := by
          rw [hra]
          simpa using fun hcon => hmid (by simpa using hcon)
        simp [this]

/-- Witness for **C9**: cancelling member `m1` removes exactly its two
assignments and leaves `m2`'s assignment untouched. -/
theorem update_member_status_witness :
    (∃ m ∈ exDbStatus.members, m.id = "m1") ∧
    (∃ db', update_member_status exDbStatus "m1" RegistrationStatus.cancelled = .ok db' ∧
      (RegistrationStatus.cancelled = RegistrationStatus.cancelled →
        db'.assignments = exDbStatus.assignments.filter (fun a =>
          !(a.registration_member_id == some "m1"))) ∧
      (RegistrationStatus.cancelled ≠ RegistrationStatus.cancelled →
        db'.assignments = exDbStatus.assignments) ∧
      (∀ mid : String, mid ≠ "m1" →
        db'.assignments.filter (fun a => a.registration_member_id == some mid) =
        exDbStatus.assignments.filter (fun a => a.registration_member_id == some mid))) :=
  ⟨by decide,
    update_member_status_assignment_effects exDbStatus "m1"
      RegistrationStatus.cancelled (by decide)⟩

/-- **C7**: the member lifecycle status is drawn from exactly
{`registered`, `waiting`, `confirmed`, `cancelled`} (the four constructors of
`RegistrationStatus`), and — provided the joined rows are id-consistent, as
rows repeating a primary-keyed member are — `total_participants` counts the
distinct members across all registrations, `confirmed_participants` counts
the distinct members with status `confirmed`, `waiting_participants` those
with status `waiting`, and the four statuses partition the total. -/
theorem dashboard_headline_counts (rows : List RegistrationMember)
    (hcons : ∀ m ∈ rows, ∀ m' ∈ rows, m.id = m'.id → m = m') :
    total_participants rows = ((rows.map (fun m => m.id)).toFinset).card ∧
    confirmed_participants rows =
      (((rows.filter (fun m => m.status == RegistrationStatus.confirmed)).map
        (fun m => m.id)).toFinset).card ∧
    waiting_participants rows =
      (((rows.filter (fun m => m.status == RegistrationStatus.waiting)).map
        (fun m => m.id)).toFinset).card ∧
    total_participants rows = confirmed_participants rows + waiting_participants rows
      + (collectMembers rows).countP (fun m => m.status == RegistrationStatus.registered)
      + (collectMembers rows).countP (fun m => m.status == RegistrationStatus.cancelled) := by
  refine ⟨?_, ?_, ?_, ?_⟩
  · unfold total_participants
    have h1 : (collectMembers rows).length =
        (collectMembers rows).countP (fun _ => true) := by
      simp
    rw [h1, collect_countP_card rows hcons (fun _ => true)]
    simp
  · exact collect_countP_card rows hcons _
  · exact collect_countP_card rows hcons _
  · unfold total_participants confirmed_participants waiting_participants
    exact status_partition (collectMembers rows)

/-- Witness for **C7**: three joined rows repeat member `m1`; the counts see
two distinct members, one confirmed and one waiting. -/
theorem dashboard_headline_counts_witness :
    (∀ m ∈ exRows, ∀ m' ∈ exRows, m.id = m'.id → m = m') ∧
    total_participants exRows = ((exRows.map (fun m => m.id)).toFinset).card :=
  ⟨by decide, (dashboard_headline_counts exRows (by decide)).1⟩

end Vaani
